import Mathlib

/-!
Verification of `momepy/dimension.py` (dimension characters of urban-morphology
objects) against its natural-language specification.

The Python module operates on a geopandas `GeoDataFrame`: an ordered collection
of rows, each holding a geometry object and a mapping from column names to
numeric cells (a cell may be null/NaN).  Every metric first creates the output
column filled with nulls (`objects[column_name] = None; .astype('float')`),
then iterates the rows, writing one cell per row; some metrics wrap the loop in
`try/except KeyError`, and the functions differ in what they `return`.

The embedding below models:
  * floats by an abstract linear ordered field `α` (instantiated at `ℚ` for
    exact evaluation and at `ℝ` where the source takes a square root);
  * NaN by `Option.none`, with the source's NaN-propagating arithmetic;
  * Python exceptions by `Except` with constructors the source can raise
    (`KeyError` from a missing column, `IndexError` from `iloc` out of bounds,
    `AttributeError` from attribute access on `None`-like values, `TypeError`
    from subscripting `None`);
  * geometry objects (shapely) by a record of the scalar values and coordinate
    sequences the engine reads: shapely itself is an external collaborator, so
    its outputs (`area`, `length`, exterior-ring area, convex-hull exterior
    coordinates) are fields of the record;
  * `print` by an accumulated list of output lines;
  * the minimal-enclosing-circle solver `make_circle`, which the source imports
    from `momepy.shape` (a file not part of this repository snapshot), is
    modelled from the specification — see its doc comment.
-/

namespace Momepy

/-- A planar point with exact rational coordinates (the engine's points are
read off the input geometry; rationals model floating-point inputs exactly). -/
abbrev Point := ℚ × ℚ

/-- The geometry-type tag (`geom.type` in shapely), used by the engine only to
distinguish simple polygons from everything else. -/
inductive GeomType where
  | polygon
  | multiPolygon
  | point
  | lineString
deriving DecidableEq

/-- Model of a shapely geometry object, carrying exactly the values the engine
reads.  Geometry computations (area, perimeter/length, the area of the polygon
rebuilt from the exterior ring only, the coordinate sequence of the boundary,
and the coordinate sequence of the exterior of the convex hull) are performed
by the external geometry library, so they appear here as stored fields.
`convexHullExterior` is `none` when `geom.convex_hull` has no `.exterior`
attribute (shapely returns a Point or LineString hull for degenerate inputs). -/
structure Geometry (α : Type) where
  typ : GeomType
  area : α
  length : α
  exteriorArea : α
  boundaryCoords : List Point
  convexHullExterior : Option (List Point)
deriving DecidableEq

/-- A Python exception as raised by the source paths under study. -/
inductive Exc where
  | keyError (key : String)
  | indexError (idx : Nat)
  | attributeError (attr : String)
  | typeError
deriving DecidableEq

/-- One row of a GeoDataFrame: the geometry column (which can hold a null
geometry) and the remaining columns as an ordered association list from column
name to cell; a cell is `none` when it holds NaN. -/
structure Row (α : Type) where
  geometry : Option (Geometry α)
  attrs : List (String × Option α)
deriving DecidableEq

/-- The object collection: an ordered, positionally indexable list of rows
(the default `RangeIndex` of a GeoDataFrame: row labels coincide with
positions). -/
structure GeoDataFrame (α : Type) where
  rows : List (Row α)
deriving DecidableEq

/-- Replace the cell for column `c`, or append the column at the end if the row
does not have it yet (pandas appends new columns after existing ones). -/
def setAttr {α : Type} : List (String × Option α) → String → Option α →
    List (String × Option α)
  | [], c, v => [(c, v)]
  | (k, w) :: t, c, v => if k = c then (k, v) :: t else (k, w) :: setAttr t c v

/-- `objects[column_name] = None; objects[column_name].astype('float')`:
create (or overwrite) the named column with a null in every row.  Assigning to
the `'geometry'` column replaces every geometry by a null. -/
def setColNone {α : Type} (df : GeoDataFrame α) (c : String) : GeoDataFrame α :=
  if c = "geometry" then ⟨df.rows.map fun r => { r with geometry := none }⟩
  else ⟨df.rows.map fun r => { r with attrs := setAttr r.attrs c v }⟩
  where v : Option α := none

/-- Helper of `writeCell`: update the row at the given position. -/
def writeCellRows {α : Type} : List (Row α) → Nat → String → Option α → List (Row α)
  | [], _, _, _ => []
  | r :: t, 0, c, v => { r with attrs := setAttr r.attrs c v } :: t
  | r :: t, i + 1, c, v => r :: writeCellRows t i c v

/-- `objects.loc[index, column] = value` on a positionally labelled frame. -/
def writeCell {α : Type} (df : GeoDataFrame α) (i : Nat) (c : String)
    (v : Option α) : GeoDataFrame α :=
  ⟨writeCellRows df.rows i c v⟩

/-- `row[c]` for a non-geometry column: the cell if the column exists, else a
`KeyError`. -/
def getAttr {α : Type} (r : Row α) (c : String) : Except Exc (Option α) :=
  match r.attrs.lookup c with
  | some v => .ok v
  | none => .error (.keyError c)

/-- `row['geometry'].<attr>`: the geometry object if it is not null, else the
`AttributeError` that Python raises when `<attr>` is accessed on `None`. -/
def getGeom {α : Type} (r : Row α) (attr : String) : Except Exc (Geometry α) :=
  match r.geometry with
  | some g => .ok g
  | none => .error (.attributeError attr)

/-- `objects.iloc[n]`: positional row access; out of bounds raises
`IndexError`. -/
def iloc {α : Type} (df : GeoDataFrame α) (n : Nat) : Except Exc (Row α) :=
  match df.rows[n]? with
  | some r => .ok r
  | none => .error (.indexError n)

/-- Row access inside the `iterrows` loop (always in range). -/
def rowAt {α : Type} (df : GeoDataFrame α) (i : Nat) : Except Exc (Row α) :=
  match df.rows[i]? with
  | some r => .ok r
  | none => .error (.indexError i)

/-- NaN-propagating multiplication of two cells. -/
def omul {α : Type} [Mul α] : Option α → Option α → Option α
  | some x, some y => some (x * y)
  | _, _ => none

/-- NaN-propagating addition of two cells. -/
def oadd {α : Type} [Add α] : Option α → Option α → Option α
  | some x, some y => some (x + y)
  | _, _ => none

/-- NaN-propagating subtraction of two cells. -/
def osub {α : Type} [Sub α] : Option α → Option α → Option α
  | some x, some y => some (x - y)
  | _, _ => none

/-- Python float floor division by 3 (`h // 3 = math.floor(h / 3)`),
NaN-propagating. -/
def ofloorDiv3 {α : Type} [LinearOrderedField α] [FloorRing α] :
    Option α → Option α
  | some x => some ((⌊x / 3⌋ : ℤ) : α)
  | none => none

/-- Run the `for index, row in objects.iterrows()` loop over the given
positions, threading the frame through `step`; the first raised exception
aborts the loop, and the frame state reached so far accompanies it. -/
def runRowsAux {α : Type} (step : GeoDataFrame α → Nat → Except Exc (GeoDataFrame α)) :
    List Nat → GeoDataFrame α → Except (Exc × GeoDataFrame α) (GeoDataFrame α)
  | [], df => .ok df
  | i :: is, df =>
    match step df i with
    | .ok df2 => runRowsAux step is df2
    | .error e => .error (e, df)

/-- The full `iterrows` loop over all rows. -/
def runRows {α : Type} (df : GeoDataFrame α)
    (step : GeoDataFrame α → Nat → Except Exc (GeoDataFrame α)) :
    Except (Exc × GeoDataFrame α) (GeoDataFrame α) :=
  runRowsAux step (List.range df.rows.length) df

/-- The observable outcome of a metric call that did not raise: the mutated
frame (the caller's object, updated in place), the Python return value
(`none` models returning `None`), and the printed lines. -/
structure CallOk (α : Type) where
  state : GeoDataFrame α
  ret : Option (GeoDataFrame α)
  out : List String
deriving DecidableEq

/-- The observable outcome of a metric call: either a `CallOk` or an
uncaught exception together with the frame state and output at raise time. -/
abbrev Res (α : Type) := Except (Exc × GeoDataFrame α × List String) (CallOk α)

end Momepy

namespace Momepy

/-- `momepy.dimension.area`. -/
def area {α : Type} (objects : GeoDataFrame α) (column_name : String) : Res α :=
  let st := setColNone objects column_name
  let out := ["Calculating areas..."]
  match runRows st (fun df i => do
      let r ← rowAt df i
      let g ← getGeom r "area"
      .ok (writeCell df i column_name (some g.area))) with
  | .ok st2 => .ok ⟨st2, some st2, out ++ ["Areas calculated."]⟩
  | .error (e, stE) => .error (e, stE, out)

/-- `momepy.dimension.perimeter`. -/
def perimeter {α : Type} (objects : GeoDataFrame α) (column_name : String) : Res α :=
  let st := setColNone objects column_name
  let out := ["Calculating perimeters..."]
  match runRows st (fun df i => do
      let r ← rowAt df i
      let g ← getGeom r "length"
      .ok (writeCell df i column_name (some g.length))) with
  | .ok st2 => .ok ⟨st2, some st2, out ++ ["Perimeters calculated."]⟩
  | .error (e, stE) => .error (e, stE, out)

/-- `momepy.dimension.height_os` (`original_column` defaults to `'relh2'`). -/
def height_os {α : Type} (objects : GeoDataFrame α) (column_name : String)
    (original_column : String := "relh2") : Res α :=
  let st := setColNone objects column_name
  let out := ["Calculating heights..."]
  match runRows st (fun df i => do
      let r ← rowAt df i
      let v ← getAttr r original_column
      .ok (writeCell df i column_name v)) with
  | .ok st2 => .ok ⟨st2, some st2, out ++ ["Heights defined."]⟩
  | .error (e, stE) => .error (e, stE, out)

/-- `momepy.dimension.height_prg` (defaults `floors_column='od_POCET_P'`,
`floor_type='od_TYP'`); the per-floor factor is 3.5 for type 7, 5 for type 3,
and 3 otherwise. -/
def height_prg {α : Type} [LinearOrderedField α] (objects : GeoDataFrame α)
    (column_name : String) (floors_column : String := "od_POCET_P")
    (floor_type : String := "od_TYP") : Res α :=
  let st := setColNone objects column_name
  let out := ["Calculating heights..."]
  match runRows st (fun df i => do
      let r ← rowAt df i
      let ft ← getAttr r floor_type
      let fl ← getAttr r floors_column
      let height :=
        if ft = some 7 then omul fl (some (7 / 2))
        else if ft = some 3 then omul fl (some 5)
        else omul fl (some 3)
      .ok (writeCell df i column_name height)) with
  | .ok st2 => .ok ⟨st2, some st2, out ++ ["Heights defined."]⟩
  | .error (e, stE) => .error (e, stE, out)

/-- The error line printed by `volume`, `floor_area` and `courtyard_area` when
the area column is missing (the same text in all three). -/
def errArea (area_column : String) : String :=
  "ERROR: Building area column named " ++ area_column ++
    " not found. Define area_column or set area_calculated to False."

/-- `momepy.dimension.volume`.  With `area_calculated = true` the row loop is
wrapped in `try/except KeyError` and the function ends without a `return`
(returning `None`); with `area_calculated = false` it returns the frame. -/
def volume {α : Type} [Mul α] (objects : GeoDataFrame α) (column_name : String)
    (area_column : String) (height_column : String) (area_calculated : Bool) :
    Res α :=
  let st := setColNone objects column_name
  let out := ["Calculating volumes..."]
  if area_calculated then
    match runRows st (fun df i => do
        let r ← rowAt df i
        let a ← getAttr r area_column
        let h ← getAttr r height_column
        .ok (writeCell df i column_name (omul a h))) with
    | .ok st2 => .ok ⟨st2, none, out ++ ["Volumes calculated."]⟩
    | .error (.keyError _k, stE) => .ok ⟨stE, none, out ++ [errArea area_column]⟩
    | .error (e, stE) => .error (e, stE, out)
  else
    match runRows st (fun df i => do
        let r ← rowAt df i
        let g ← getGeom r "area"
        let h ← getAttr r height_column
        .ok (writeCell df i column_name (omul (some g.area) h))) with
    | .ok st2 => .ok ⟨st2, some st2, out ++ ["Volumes calculated."]⟩
    | .error (e, stE) => .error (e, stE, out)

/-- `momepy.dimension.floor_area`: like `volume` but the height is first floor
divided by the literal 3 (`row[height_column] // 3`), and the trailing
`return objects` sits at function level, so the frame is returned on every
path that completes, including the caught `KeyError` path. -/
def floor_area {α : Type} [LinearOrderedField α] [FloorRing α]
    (objects : GeoDataFrame α) (column_name : String) (area_column : String)
    (height_column : String) (area_calculated : Bool) : Res α :=
  let st := setColNone objects column_name
  let out := ["Calculating floor areas..."]
  if area_calculated then
    match runRows st (fun df i => do
        let r ← rowAt df i
        let a ← getAttr r area_column
        let h ← getAttr r height_column
        .ok (writeCell df i column_name (omul a (ofloorDiv3 h)))) with
    | .ok st2 => .ok ⟨st2, some st2, out ++ ["Floor areas calculated."]⟩
    | .error (.keyError _k, stE) =>
      .ok ⟨stE, some stE, out ++ [errArea area_column]⟩
    | .error (e, stE) => .error (e, stE, out)
  else
    match runRows st (fun df i => do
        let r ← rowAt df i
        let g ← getGeom r "area"
        let h ← getAttr r height_column
        .ok (writeCell df i column_name (omul (some g.area) (ofloorDiv3 h)))) with
    | .ok st2 => .ok ⟨st2, some st2, out ++ ["Floor areas calculated."]⟩
    | .error (e, stE) => .error (e, stE, out)

/-- `momepy.dimension.courtyard_area`: cell = `Polygon(geometry.exterior).area
- area`, where the subtrahend is the stored area column (`area_calculated =
true`, loop wrapped in `try/except KeyError`) or `geometry.area`; the access
to `row['geometry'].exterior` happens before the column lookup, and an
`AttributeError` from a null geometry is not caught. -/
def courtyard_area {α : Type} [Sub α] (objects : GeoDataFrame α)
    (column_name : String) (area_column : String) (area_calculated : Bool) :
    Res α :=
  let st := setColNone objects column_name
  let out := ["Calculating courtyard areas..."]
  if area_calculated then
    match runRows st (fun df i => do
        let r ← rowAt df i
        let g ← getGeom r "exterior"
        let a ← getAttr r area_column
        .ok (writeCell df i column_name (osub (some g.exteriorArea) a))) with
    | .ok st2 => .ok ⟨st2, some st2, out ++ ["Core area indices calculated."]⟩
    | .error (.keyError _k, stE) =>
      .ok ⟨stE, some stE, out ++ [errArea area_column]⟩
    | .error (e, stE) => .error (e, stE, out)
  else
    match runRows st (fun df i => do
        let r ← rowAt df i
        let g ← getGeom r "exterior"
        .ok (writeCell df i column_name (osub (some g.exteriorArea) (some g.area)))) with
    | .ok st2 => .ok ⟨st2, some st2, out ++ ["Core area indices calculated."]⟩
    | .error (e, stE) => .error (e, stE, out)

/-- Squared Euclidean distance between two points of the plane over a
commutative ring (used at `ℚ` by the solver and at `ℝ` by its optimality
statement). -/
def distSq {β : Type} [CommRing β] (c p : β × β) : β :=
  (c.1 - p.1) ^ 2 + (c.2 - p.2) ^ 2

/-- Dot product in the plane. -/
def dotp {β : Type} [CommRing β] (v w : β × β) : β := v.1 * w.1 + v.2 * w.2

/-- The real image of a rational point. -/
def toR (p : Point) : ℝ × ℝ := ((p.1 : ℝ), (p.2 : ℝ))

/-- The squared covering radius of a real center over the (rational) input
points: the smallest `r²` such that the circle of radius `r` around `x`
contains every input point.  Used to state the optimality of the modelled
minimal-enclosing-circle solver over all real centers. -/
def covR (x : ℝ × ℝ) (ps : List Point) : ℝ :=
  (ps.map fun q => distSq x (toR q)).foldr max 0

/-- The squared covering radius of center `c` over the point list `ps`:
the largest squared distance from `c` to a point of `ps` (`0` for `[]`). -/
def coverSq (c : Point) (ps : List Point) : ℚ := (ps.map (distSq c)).foldr max 0

/-- Midpoint of two points (center of the circle having them as a diameter). -/
def midpt (p q : Point) : Point := ((p.1 + q.1) / 2, (p.2 + q.2) / 2)

/-- Circumcenter of three points, `none` when they are collinear (the three
perpendicular bisectors have no common point). -/
def circumcenter (a b c : Point) : Option Point :=
  let d := 2 * ((b.1 - a.1) * (c.2 - a.2) - (b.2 - a.2) * (c.1 - a.1))
  if d = 0 then none
  else
    let bb := distSq b a
    let cc := distSq c a
    some (a.1 + ((c.2 - a.2) * bb - (b.2 - a.2) * cc) / d,
          a.2 + ((b.1 - a.1) * cc - (c.1 - a.1) * bb) / d)

/-- Candidate centers for the minimal enclosing circle of `ps`: the points
themselves, the midpoints of all pairs, and the circumcenters of all
non-collinear triples.  The center of the minimal enclosing circle always lies
in this list. -/
def candCenters (ps : List Point) : List Point :=
  ps ++ (ps.flatMap fun p => ps.map fun q => midpt p q)
     ++ (ps.flatMap fun p => ps.flatMap fun q => ps.filterMap fun r => circumcenter p q r)

/-- Among `cands`, the first center of least squared covering radius over
`ps`, starting from `init`. -/
def pickMin (ps : List Point) (init : Point) (cands : List Point) : Point :=
  cands.foldl (fun acc c => if coverSq c ps < coverSq acc ps then c else acc) init

/-- Modelled from the spec: `momepy.shape.make_circle`, the minimal enclosing
circle solver invoked by `longest_axis_length`, is imported from
`momepy/shape.py`, which is not part of this repository snapshot.  Following
the contract of spec §4.1 (`enclosingCircle(points, non-empty) -> Circle` with
every input point inside and no smaller circle containing all points) and the
brute-force characterization of spec §8, the model returns `none` on an empty
input (the source returns `None`) and otherwise the triple
`(center.x, center.y, radius²)` of the smallest circle over all candidate
centers; exact rational arithmetic realizes the epsilon policy of §4.1 with
epsilon 0.  The third component is the squared radius so that the solver stays
within exact arithmetic; consumers apply the square root. -/
def make_circle (ps : List Point) : Option (ℚ × ℚ × ℚ) :=
  match ps with
  | [] => none
  | p :: _ =>
    let best := pickMin ps p (candCenters ps)
    some (best.1, best.2, coverSq best ps)

/-- The inner helper `longest_axis` of `longest_axis_length`: `circ[2] * 2`
(twice the radius of the enclosing circle); subscripting the `None` returned
by `make_circle` on an empty input raises `TypeError`.  `sqrtq` is the square
root on the numeric domain (external math primitive), applied because the
model keeps the squared radius exact. -/
def longest_axis {α : Type} [LinearOrderedField α] (sqrtq : ℚ → α) (points : List Point) :
    Except Exc α :=
  match make_circle points with
  | none => .error .typeError
  | some (_, _, rsq) => .ok (sqrtq rsq * 2)

/-- The inner helper `sort_NoneType` of `longest_axis_length`.  It is defined
by the source but never called: the row loop invokes `longest_axis` directly.
For a null geometry it returns 0; for a geometry whose type tag differs from
`'Polygon'` it returns 0 (the source compares with `is not`, which CPython's
interning of identifier-like string literals makes behave as inequality);
otherwise it runs `longest_axis` on `list(geom.boundary.coords)`. -/
def sort_NoneType {α : Type} [LinearOrderedField α] (sqrtq : ℚ → α)
    (geom : Option (Geometry α)) : Except Exc α :=
  match geom with
  | none => .ok 0
  | some g =>
    if g.typ ≠ .polygon then .ok 0
    else longest_axis sqrtq g.boundaryCoords

/-- `momepy.dimension.longest_axis_length`: for every row, feed
`row['geometry'].convex_hull.exterior.coords` to `longest_axis` and store the
result; a null geometry raises `AttributeError` on `.convex_hull`, and a
convex hull without an exterior ring (hull of a degenerate geometry) raises
`AttributeError` on `.exterior`; neither is caught, and `sort_NoneType` is
never invoked. -/
def longest_axis_length {α : Type} [LinearOrderedField α] (sqrtq : ℚ → α)
    (objects : GeoDataFrame α) (column_name : String) : Res α :=
  let st := setColNone objects column_name
  let out := ["Calculating the longest axis..."]
  match runRows st (fun df i => do
      let r ← rowAt df i
      let g ← getGeom r "convex_hull"
      let coords ← match g.convexHullExterior with
        | some cs => Except.ok cs
        | none => Except.error (.attributeError "exterior")
      let v ← longest_axis sqrtq coords
      .ok (writeCell df i column_name (some v))) with
  | .ok st2 => .ok ⟨st2, some st2, out ++ ["The longest axis calculated."]⟩
  | .error (e, stE) => .error (e, stE, out)

/-- The inner neighbour loop of `effective_mesh`: starting from the row's own
area cell, add the area cell of `objects.iloc[n]` for each neighbour id `n`;
an out-of-range id raises `IndexError`, a missing area column `KeyError`. -/
def sumNeighbours {α : Type} [Add α] (df : GeoDataFrame α) (area_column : String) :
    List Nat → Option α → Except Exc (Option α)
  | [], acc => .ok acc
  | n :: ns, acc => do
    let rn ← iloc df n
    let na ← getAttr rn area_column
    sumNeighbours df area_column ns (oadd acc na)

/-- `momepy.dimension.effective_mesh`: for each row, sum its own area cell and
the area cells of its neighbours (`spatial_weights.neighbors[index]`, an
external mapping from row id to neighbour ids) and divide by neighbour count
plus one.  No exception is caught, nothing is printed after the loop, and the
function has no `return` statement (it returns `None`). -/
def effective_mesh {α : Type} [LinearOrderedField α] (objects : GeoDataFrame α)
    (column_name : String) (spatial_weights : Nat → List Nat)
    (area_column : String) : Res α :=
  let st := setColNone objects column_name
  let out := ["Calculating effective mesh size..."]
  match runRows st (fun df i => do
      let r ← rowAt df i
      let neighbours := spatial_weights i
      let own ← getAttr r area_column
      let total ← sumNeighbours df area_column neighbours own
      .ok (writeCell df i column_name
        (total.map fun t => t / ((neighbours.length : α) + 1)))) with
  | .ok st2 => .ok ⟨st2, none, out⟩
  | .error (e, stE) => .error (e, stE, out)

/-- Modelled from the spec: the floor-area formula of spec §4.3 and §6 with
the `floor_height_unit` configuration option (default 3).  The source has no
such option; this definition exists to compare the spec's configurable formula
with the hard-coded one in `floor_area`. -/
def floor_area_spec_value (area height unit : ℚ) : ℚ :=
  area * ((⌊height / unit⌋ : ℤ) : ℚ)

/-- The cell of row `i`, column `c`: `none` when the row or the column does
not exist, `some none` when the cell holds a null. -/
def cellAt {α : Type} (df : GeoDataFrame α) (i : Nat) (c : String) :
    Option (Option α) :=
  (df.rows[i]?).bind fun r => r.attrs.lookup c

/-- `df` agrees with `df0` everywhere outside column `col`: same number of
rows, same geometries, and the same cells in every column other than `col`.
This is the frame relation preserved by a metric's row loop. -/
def EqOutside {α : Type} (col : String) (df0 df : GeoDataFrame α) : Prop :=
  df.rows.length = df0.rows.length ∧
  (∀ i : Nat, (df.rows[i]?).map Row.geometry = (df0.rows[i]?).map Row.geometry) ∧
  ∀ i : Nat, ∀ k : String, k ≠ col →
    (df.rows[i]?).map (fun r => r.attrs.lookup k) =
      (df0.rows[i]?).map (fun r => r.attrs.lookup k)

end Momepy

namespace Momepy

variable {α : Type}

theorem lookup_setAttr_self (l : List (String × Option α)) (c : String)
    (v : Option α) : (setAttr l c v).lookup c = some v := by
  induction l with
  | nil => simp [setAttr]
  | cons h t ih =>
    obtain ⟨k, w⟩ := h
    by_cases hk : k = c
    · subst hk; simp [setAttr]
    · simp [setAttr, hk, List.lookup, beq_false_of_ne (Ne.symm hk), ih]

theorem lookup_setAttr_ne (l : List (String × Option α)) (c k : String)
    (v : Option α) (hk : k ≠ c) : (setAttr l c v).lookup k = l.lookup k := by
  induction l with
  | nil => simp [setAttr, List.lookup, beq_false_of_ne hk]
  | cons h t ih =>
    obtain ⟨k2, w⟩ := h
    by_cases hk2 : k2 = c
    · subst hk2
      simp [setAttr, List.lookup, beq_false_of_ne hk]
    · by_cases hkk : k = k2
      · subst hkk; simp [setAttr, hk2, List.lookup]
      · simp [setAttr, hk2, List.lookup, beq_false_of_ne hkk, ih]

theorem writeCellRows_length (l : List (Row α)) (i : Nat) (c : String)
    (v : Option α) : (writeCellRows l i c v).length = l.length := by
  induction l generalizing i with
  | nil => simp [writeCellRows]
  | cons r t ih =>
    cases i with
    | zero => simp [writeCellRows]
    | succ j => simp [writeCellRows, ih]

theorem writeCellRows_getElem_ne (l : List (Row α)) (i j : Nat) (c : String)
    (v : Option α) (h : j ≠ i) : (writeCellRows l i c v)[j]? = l[j]? := by
  induction l generalizing i j with
  | nil => simp [writeCellRows]
  | cons r t ih =>
    cases i with
    | zero =>
      cases j with
      | zero => exact absurd rfl h
      | succ j2 => simp [writeCellRows]
    | succ i2 =>
      cases j with
      | zero => simp [writeCellRows]
      | succ j2 =>
        simp only [writeCellRows, List.getElem?_cons_succ]
        exact ih i2 j2 (by omega)

theorem writeCellRows_getElem_self (l : List (Row α)) (i : Nat) (c : String)
    (v : Option α) :
    (writeCellRows l i c v)[i]? =
      (l[i]?).map fun r => { r with attrs := setAttr r.attrs c v } := by
  induction l generalizing i with
  | nil => simp [writeCellRows]
  | cons r t ih =>
    cases i with
    | zero => simp [writeCellRows]
    | succ j => simp [writeCellRows, ih]

theorem cellAt_writeCell_self (df : GeoDataFrame α) (i : Nat) (c : String)
    (v : Option α) (h : i < df.rows.length) :
    cellAt (writeCell df i c v) i c = Option.some v := by
  simp only [cellAt, writeCell, writeCellRows_getElem_self,
    List.getElem?_eq_getElem h]
  simp [lookup_setAttr_self]

theorem cellAt_writeCell_ne_row (df : GeoDataFrame α) (i j : Nat)
    (c k : String) (v : Option α) (h : j ≠ i) :
    cellAt (writeCell df i c v) j k = cellAt df j k := by
  simp [cellAt, writeCell, writeCellRows_getElem_ne _ _ _ _ _ h]

theorem cellAt_writeCell_ne_col (df : GeoDataFrame α) (i j : Nat)
    (c k : String) (v : Option α) (h : k ≠ c) :
    cellAt (writeCell df i c v) j k = cellAt df j k := by
  by_cases hj : j = i
  · subst hj
    simp only [cellAt, writeCell, writeCellRows_getElem_self]
    cases df.rows[j]? with
    | none => rfl
    | some r => simp [lookup_setAttr_ne _ _ _ _ h]
  · exact cellAt_writeCell_ne_row df i j c k v hj

theorem eqOutside_refl (col : String) (df : GeoDataFrame α) :
    EqOutside col df df := ⟨rfl, fun _ => rfl, fun _ _ _ => rfl⟩

theorem eqOutside_trans (col : String) (a b c : GeoDataFrame α)
    (h1 : EqOutside col a b) (h2 : EqOutside col b c) : EqOutside col a c := by
  obtain ⟨hl1, hg1, ha1⟩ := h1
  obtain ⟨hl2, hg2, ha2⟩ := h2
  exact ⟨hl2.trans hl1, fun i => (hg2 i).trans (hg1 i),
    fun i k hk => (ha2 i k hk).trans (ha1 i k hk)⟩

theorem eqOutside_writeCell (col : String) (df0 df : GeoDataFrame α)
    (i : Nat) (v : Option α) (h : EqOutside col df0 df) :
    EqOutside col df0 (writeCell df i col v) := by
  obtain ⟨hl, hg, ha⟩ := h
  refine ⟨?_, ?_, ?_⟩
  · simpa [writeCell, writeCellRows_length] using hl
  · intro j
    by_cases hj : j = i
    · subst hj
      rw [← hg j]
      simp only [writeCell, writeCellRows_getElem_self]
      cases df.rows[j]? <;> rfl
    · rw [← hg j]
      simp [writeCell, writeCellRows_getElem_ne _ _ _ _ _ hj]
  · intro j k hk
    by_cases hj : j = i
    · subst hj
      rw [← ha j k hk]
      simp only [writeCell, writeCellRows_getElem_self]
      cases df.rows[j]? with
      | none => rfl
      | some r => simp [lookup_setAttr_ne _ _ _ _ hk]
    · rw [← ha j k hk]
      simp [writeCell, writeCellRows_getElem_ne _ _ _ _ _ hj]

/-- Master lemma for a metric's row loop: if, from any frame state agreeing
with `df0` outside `col`, the step at an in-range row `i` writes the
predetermined cell `v i` into column `col` of row `i`, then the loop over
distinct in-range positions succeeds and produces exactly those cells, leaving
everything else unchanged. -/
theorem runRowsAux_writes (col : String) (df0 : GeoDataFrame α)
    (v : Nat → Option α)
    (step : GeoDataFrame α → Nat → Except Exc (GeoDataFrame α))
    (hstep : ∀ df i, EqOutside col df0 df → i < df0.rows.length →
      step df i = .ok (writeCell df i col (v i))) :
    ∀ (l : List Nat), l.Nodup → (∀ i ∈ l, i < df0.rows.length) →
      ∀ df, EqOutside col df0 df →
      ∃ dfF, runRowsAux step l df = .ok dfF ∧ EqOutside col df0 dfF ∧
        (∀ i ∈ l, cellAt dfF i col = Option.some (v i)) ∧
        (∀ i, i ∉ l → cellAt dfF i col = cellAt df i col) := by
  intro l
  induction l with
  | nil =>
    intro _ _ df hdf
    exact ⟨df, rfl, hdf, by simp, fun i _ => rfl⟩
  | cons i is ih =>
    intro hnd hrange df hdf
    have hi : i < df0.rows.length := hrange i (List.mem_cons_self i is)
    have hstepi := hstep df i hdf hi
    have hnd2 : is.Nodup := (List.nodup_cons.mp hnd).2
    have hni : i ∉ is := (List.nodup_cons.mp hnd).1
    have hdf2 : EqOutside col df0 (writeCell df i col (v i)) :=
      eqOutside_writeCell col df0 df i (v i) hdf
    obtain ⟨dfF, hrun, hout, hcells, hrest⟩ :=
      ih hnd2 (fun j hj => hrange j (List.mem_cons_of_mem i hj))
        (writeCell df i col (v i)) hdf2
    refine ⟨dfF, ?_, hout, ?_, ?_⟩
    · simp [runRowsAux, hstepi, hrun]
    · intro j hj
      rcases List.mem_cons.mp hj with h | h
      · subst h
        rw [hrest j hni]
        have hlen : j < df.rows.length := by
          obtain ⟨hl, _, _⟩ := hdf
          omega
        exact cellAt_writeCell_self df j col (v j) hlen
      · exact hcells j h
    · intro j hj
      have hji : j ≠ i := fun hc => hj (hc ▸ List.mem_cons_self i is)
      have hjis : j ∉ is := fun hc => hj (List.mem_cons_of_mem i hc)
      rw [hrest j hjis]
      exact cellAt_writeCell_ne_row df i j col col (v i) hji

theorem setColNone_length (df : GeoDataFrame α) (c : String) :
    (setColNone df c).rows.length = df.rows.length := by
  by_cases h : c = "geometry" <;> simp [setColNone, h]

theorem setColNone_getElem (df : GeoDataFrame α) (c : String)
    (hc : c ≠ "geometry") (i : Nat) :
    (setColNone df c).rows[i]? =
      (df.rows[i]?).map fun r => { r with attrs := setAttr r.attrs c none } := by
  simp [setColNone, hc, setColNone.v, List.getElem?_map]

theorem eqOutside_setColNone (df : GeoDataFrame α) (c : String)
    (hc : c ≠ "geometry") : EqOutside c df (setColNone df c) := by
  refine ⟨setColNone_length df c, ?_, ?_⟩
  · intro i
    rw [setColNone_getElem df c hc i]
    cases df.rows[i]? <;> rfl
  · intro i k hk
    rw [setColNone_getElem df c hc i]
    cases df.rows[i]? with
    | none => rfl
    | some r => simp [lookup_setAttr_ne _ _ _ _ hk]

theorem cellAt_setColNone_self (df : GeoDataFrame α) (c : String)
    (hc : c ≠ "geometry") (i : Nat) (h : i < df.rows.length) :
    cellAt (setColNone df c) i c = some none := by
  simp [cellAt, setColNone_getElem df c hc i, List.getElem?_eq_getElem h,
    lookup_setAttr_self]

/-- The geometry of any row of a frame that agrees with `df` outside `col`
(where `col` is not the geometry column) coincides with `df`'s geometry. -/
theorem geometry_of_eqOutside (col : String) (df df2 : GeoDataFrame α)
    (h1 : EqOutside col df df2) (i : Nat) (r : Row α) (r2 : Row α)
    (hr : df.rows[i]? = some r) (hr2 : df2.rows[i]? = some r2) :
    r2.geometry = r.geometry := by
  have := h1.2.1 i
  rw [hr, hr2] at this
  simpa using this

theorem lookup_of_eqOutside (col : String) (df df2 : GeoDataFrame α)
    (h1 : EqOutside col df df2) (i : Nat) (k : String) (hk : k ≠ col)
    (r : Row α) (r2 : Row α)
    (hr : df.rows[i]? = some r) (hr2 : df2.rows[i]? = some r2) :
    r2.attrs.lookup k = r.attrs.lookup k := by
  have := h1.2.2 i k hk
  rw [hr, hr2] at this
  simpa using this

end Momepy

namespace Momepy

variable {α : Type}

/-- `area` on a frame whose rows all carry a geometry: the call succeeds,
returns the updated frame, prints the two progress lines, writes
`geometry.area` into the named column of every row, and changes nothing
else (same row count, same geometries, identical cells in every other
column). -/
theorem area_ok (df : GeoDataFrame α) (col : String)
    (hcol : col ≠ "geometry")
    (Hg : ∀ r ∈ df.rows, r.geometry.isSome = true) :
    ∃ st2 : GeoDataFrame α,
      area df col = .ok ⟨st2, some st2, ["Calculating areas...", "Areas calculated."]⟩ ∧
      EqOutside col df st2 ∧
      ∀ i r, df.rows[i]? = some r → ∀ g, r.geometry = some g →
        cellAt st2 i col = Option.some (some g.area) := by
  classical
  have hstdf : EqOutside col df (setColNone df col) := eqOutside_setColNone df col hcol
  have hlen : (setColNone df col).rows.length = df.rows.length := setColNone_length df col
  have hstep : ∀ df2 i, EqOutside col (setColNone df col) df2 →
      i < (setColNone df col).rows.length →
      (fun dfx i => do
        let r ← rowAt dfx i
        let g ← getGeom r "area"
        Except.ok (writeCell dfx i col (some g.area))) df2 i
        = Except.ok (writeCell df2 i col
            (((df.rows[i]?).bind Row.geometry).map Geometry.area)) := by
    intro df2 i h2 hi
    have hidf : i < df.rows.length := by omega
    have hi2 : i < df2.rows.length := by have := h2.1; omega
    have hr0 : df.rows[i]? = some df.rows[i] := List.getElem?_eq_getElem hidf
    obtain ⟨g0, hg0⟩ :=
      Option.isSome_iff_exists.mp (Hg df.rows[i] (List.getElem_mem hidf))
    have hr2 : df2.rows[i]? = some df2.rows[i] := List.getElem?_eq_getElem hi2
    have hgeom2 : (df2.rows[i]).geometry = some g0 := by
      have h3 := geometry_of_eqOutside col df df2
        (eqOutside_trans col df _ df2 hstdf h2) i _ _ hr0 hr2
      rw [h3, hg0]
    simp only [rowAt, hr2]
    simp only [Bind.bind, Except.bind, getGeom, hgeom2, hr0, hg0, Option.bind,
      Option.map]
  obtain ⟨dfF, hrun, hout, hcells, _⟩ :=
    runRowsAux_writes col (setColNone df col) _ _ hstep
      (List.range (setColNone df col).rows.length)
      (List.nodup_range _) (fun i hi => List.mem_range.mp hi) (setColNone df col)
      (eqOutside_refl col _)
  refine ⟨dfF, ?_, eqOutside_trans col df _ dfF hstdf hout, ?_⟩
  · simp only [area, runRows]
    rw [hrun]
    rfl
  · intro i r hr g hg
    have hidf : i < df.rows.length := by
      rcases List.getElem?_eq_some.mp hr with ⟨h, _⟩
      exact h
    have hc := hcells i (List.mem_range.mpr (by omega))
    rw [hc]
    simp [hr, hg]

/-- During a row loop that only writes `col`, the geometry seen in the current
state is the original geometry. -/
theorem loop_geometry (df df2 : GeoDataFrame α) (col : String)
    (hcol : col ≠ "geometry") (h2 : EqOutside col (setColNone df col) df2)
    (i : Nat) (hidf : i < df.rows.length) (hi2 : i < df2.rows.length) :
    (df2.rows[i]).geometry = (df.rows[i]).geometry := by
  have h1 := eqOutside_trans col df _ df2 (eqOutside_setColNone df col hcol) h2
  exact geometry_of_eqOutside col df df2 h1 i _ _
    (List.getElem?_eq_getElem hidf) (List.getElem?_eq_getElem hi2)

/-- During a row loop that only writes `col`, any column other than `col` seen
in the current state holds its original cells. -/
theorem loop_lookup (df df2 : GeoDataFrame α) (col k : String)
    (hcol : col ≠ "geometry") (hk : k ≠ col)
    (h2 : EqOutside col (setColNone df col) df2)
    (i : Nat) (hidf : i < df.rows.length) (hi2 : i < df2.rows.length) :
    (df2.rows[i]).attrs.lookup k = (df.rows[i]).attrs.lookup k := by
  have h1 := eqOutside_trans col df _ df2 (eqOutside_setColNone df col hcol) h2
  exact lookup_of_eqOutside col df df2 h1 i k hk _ _
    (List.getElem?_eq_getElem hidf) (List.getElem?_eq_getElem hi2)

theorem perimeter_ok (df : GeoDataFrame α) (col : String)
    (hcol : col ≠ "geometry")
    (Hg : ∀ r ∈ df.rows, r.geometry.isSome = true) :
    ∃ st2 : GeoDataFrame α,
      perimeter df col =
        .ok ⟨st2, some st2, ["Calculating perimeters...", "Perimeters calculated."]⟩ ∧
      EqOutside col df st2 ∧
      ∀ i r, df.rows[i]? = some r → ∀ g, r.geometry = some g →
        cellAt st2 i col = Option.some (some g.length) := by
  classical
  have hstdf : EqOutside col df (setColNone df col) := eqOutside_setColNone df col hcol
  have hlen : (setColNone df col).rows.length = df.rows.length := setColNone_length df col
  have hstep : ∀ df2 i, EqOutside col (setColNone df col) df2 →
      i < (setColNone df col).rows.length →
      (fun dfx i => do
        let r ← rowAt dfx i
        let g ← getGeom r "length"
        Except.ok (writeCell dfx i col (some g.length))) df2 i
        = Except.ok (writeCell df2 i col
            (((df.rows[i]?).bind Row.geometry).map Geometry.length)) := by
    intro df2 i h2 hi
    have hidf : i < df.rows.length := by omega
    have hi2 : i < df2.rows.length := by have := h2.1; omega
    have hr0 : df.rows[i]? = some df.rows[i] := List.getElem?_eq_getElem hidf
    obtain ⟨g0, hg0⟩ :=
      Option.isSome_iff_exists.mp (Hg df.rows[i] (List.getElem_mem hidf))
    have hr2 : df2.rows[i]? = some df2.rows[i] := List.getElem?_eq_getElem hi2
    have hgeom2 : (df2.rows[i]).geometry = some g0 := by
      rw [loop_geometry df df2 col hcol h2 i hidf hi2, hg0]
    simp only [rowAt, hr2]
    simp only [Bind.bind, Except.bind, getGeom, hgeom2, hr0, hg0, Option.bind,
      Option.map]
  obtain ⟨dfF, hrun, hout, hcells, _⟩ :=
    runRowsAux_writes col (setColNone df col) _ _ hstep
      (List.range (setColNone df col).rows.length)
      (List.nodup_range _) (fun i hi => List.mem_range.mp hi) (setColNone df col)
      (eqOutside_refl col _)
  refine ⟨dfF, ?_, eqOutside_trans col df _ dfF hstdf hout, ?_⟩
  · simp only [perimeter, runRows]
    rw [hrun]
    rfl
  · intro i r hr g hg
    have hidf : i < df.rows.length := by
      rcases List.getElem?_eq_some.mp hr with ⟨h, _⟩
      exact h
    have hc := hcells i (List.mem_range.mpr (by omega))
    rw [hc]
    simp [hr, hg]

theorem height_os_ok (df : GeoDataFrame α) (col orig : String)
    (hcol : col ≠ "geometry") (horig : orig ≠ col)
    (Hc : ∀ r ∈ df.rows, (r.attrs.lookup orig).isSome = true) :
    ∃ st2 : GeoDataFrame α,
      height_os df col orig =
        .ok ⟨st2, some st2, ["Calculating heights...", "Heights defined."]⟩ ∧
      EqOutside col df st2 ∧
      ∀ i r, df.rows[i]? = some r → ∀ cv, r.attrs.lookup orig = some cv →
        cellAt st2 i col = Option.some cv := by
  classical
  have hstdf : EqOutside col df (setColNone df col) := eqOutside_setColNone df col hcol
  have hlen : (setColNone df col).rows.length = df.rows.length := setColNone_length df col
  have hstep : ∀ df2 i, EqOutside col (setColNone df col) df2 →
      i < (setColNone df col).rows.length →
      (fun dfx i => do
        let r ← rowAt dfx i
        let v ← getAttr r orig
        Except.ok (writeCell dfx i col v)) df2 i
        = Except.ok (writeCell df2 i col
            (((df.rows[i]?).bind fun r => r.attrs.lookup orig).getD none)) := by
    intro df2 i h2 hi
    have hidf : i < df.rows.length := by omega
    have hi2 : i < df2.rows.length := by have := h2.1; omega
    have hr0 : df.rows[i]? = some df.rows[i] := List.getElem?_eq_getElem hidf
    obtain ⟨cv, hcv⟩ :=
      Option.isSome_iff_exists.mp (Hc df.rows[i] (List.getElem_mem hidf))
    have hr2 : df2.rows[i]? = some df2.rows[i] := List.getElem?_eq_getElem hi2
    have hlook2 : (df2.rows[i]).attrs.lookup orig = some cv := by
      rw [loop_lookup df df2 col orig hcol horig h2 i hidf hi2, hcv]
    simp only [rowAt, hr2]
    simp only [Bind.bind, Except.bind, getAttr, hlook2, hr0, hcv, Option.bind,
      Option.getD]
  obtain ⟨dfF, hrun, hout, hcells, _⟩ :=
    runRowsAux_writes col (setColNone df col) _ _ hstep
      (List.range (setColNone df col).rows.length)
      (List.nodup_range _) (fun i hi => List.mem_range.mp hi) (setColNone df col)
      (eqOutside_refl col _)
  refine ⟨dfF, ?_, eqOutside_trans col df _ dfF hstdf hout, ?_⟩
  · simp only [height_os, runRows]
    rw [hrun]
    rfl
  · intro i r hr cv hcv
    have hidf : i < df.rows.length := by
      rcases List.getElem?_eq_some.mp hr with ⟨h, _⟩
      exact h
    have hc := hcells i (List.mem_range.mpr (by omega))
    rw [hc]
    simp [hr, hcv]

end Momepy

namespace Momepy

variable {α : Type} [LinearOrderedField α] [FloorRing α]

theorem floor_area_true_ok (df : GeoDataFrame α) (col ac hc : String)
    (hcol : col ≠ "geometry") (hac : ac ≠ col) (hhc : hc ≠ col)
    (Ha : ∀ r ∈ df.rows, (r.attrs.lookup ac).isSome = true)
    (Hh : ∀ r ∈ df.rows, (r.attrs.lookup hc).isSome = true) :
    ∃ st2 : GeoDataFrame α,
      floor_area df col ac hc true =
        .ok ⟨st2, some st2, ["Calculating floor areas...", "Floor areas calculated."]⟩ ∧
      EqOutside col df st2 ∧
      ∀ i r, df.rows[i]? = some r → ∀ a h, r.attrs.lookup ac = some a →
        r.attrs.lookup hc = some h →
        cellAt st2 i col = Option.some (omul a (ofloorDiv3 h)) := by
  classical
  have hstdf : EqOutside col df (setColNone df col) := eqOutside_setColNone df col hcol
  have hlen : (setColNone df col).rows.length = df.rows.length := setColNone_length df col
  have hstep : ∀ df2 i, EqOutside col (setColNone df col) df2 →
      i < (setColNone df col).rows.length →
      (fun dfx i => do
        let r ← rowAt dfx i
        let a ← getAttr r ac
        let h ← getAttr r hc
        Except.ok (writeCell dfx i col (omul a (ofloorDiv3 h)))) df2 i
        = Except.ok (writeCell df2 i col
            (match df.rows[i]? with
             | some r => omul ((r.attrs.lookup ac).getD none)
                 (ofloorDiv3 ((r.attrs.lookup hc).getD none))
             | none => none)) := by
    intro df2 i h2 hi
    have hidf : i < df.rows.length := by omega
    have hi2 : i < df2.rows.length := by have := h2.1; omega
    have hr0 : df.rows[i]? = some df.rows[i] := List.getElem?_eq_getElem hidf
    obtain ⟨a0, ha0⟩ :=
      Option.isSome_iff_exists.mp (Ha df.rows[i] (List.getElem_mem hidf))
    obtain ⟨h0, hh0⟩ :=
      Option.isSome_iff_exists.mp (Hh df.rows[i] (List.getElem_mem hidf))
    have hr2 : df2.rows[i]? = some df2.rows[i] := List.getElem?_eq_getElem hi2
    have hla : (df2.rows[i]).attrs.lookup ac = some a0 := by
      rw [loop_lookup df df2 col ac hcol hac h2 i hidf hi2, ha0]
    have hlh : (df2.rows[i]).attrs.lookup hc = some h0 := by
      rw [loop_lookup df df2 col hc hcol hhc h2 i hidf hi2, hh0]
    simp only [rowAt, hr2]
    simp only [Bind.bind, Except.bind, getAttr, hla, hlh, hr0, ha0, hh0,
      Option.getD]
  obtain ⟨dfF, hrun, hout, hcells, _⟩ :=
    runRowsAux_writes col (setColNone df col) _ _ hstep
      (List.range (setColNone df col).rows.length)
      (List.nodup_range _) (fun i hi => List.mem_range.mp hi) (setColNone df col)
      (eqOutside_refl col _)
  refine ⟨dfF, ?_, eqOutside_trans col df _ dfF hstdf hout, ?_⟩
  · simp only [floor_area, runRows]
    rw [if_pos trivial, hrun]
    rfl
  · intro i r hr a h hla hlh
    have hidf : i < df.rows.length := by
      rcases List.getElem?_eq_some.mp hr with ⟨hlt, _⟩
      exact hlt
    have hcell := hcells i (List.mem_range.mpr (by omega))
    rw [hcell]
    simp [hr, hla, hlh]

omit [FloorRing α] in
theorem volume_true_ok (df : GeoDataFrame α) (col ac hc : String)
    (hcol : col ≠ "geometry") (hac : ac ≠ col) (hhc : hc ≠ col)
    (Ha : ∀ r ∈ df.rows, (r.attrs.lookup ac).isSome = true)
    (Hh : ∀ r ∈ df.rows, (r.attrs.lookup hc).isSome = true) :
    ∃ st2 : GeoDataFrame α,
      volume df col ac hc true =
        .ok ⟨st2, none, ["Calculating volumes...", "Volumes calculated."]⟩ ∧
      EqOutside col df st2 ∧
      ∀ i r, df.rows[i]? = some r → ∀ a h, r.attrs.lookup ac = some a →
        r.attrs.lookup hc = some h →
        cellAt st2 i col = Option.some (omul a h) := by
  classical
  have hstdf : EqOutside col df (setColNone df col) := eqOutside_setColNone df col hcol
  have hlen : (setColNone df col).rows.length = df.rows.length := setColNone_length df col
  have hstep : ∀ df2 i, EqOutside col (setColNone df col) df2 →
      i < (setColNone df col).rows.length →
      (fun dfx i => do
        let r ← rowAt dfx i
        let a ← getAttr r ac
        let h ← getAttr r hc
        Except.ok (writeCell dfx i col (omul a h))) df2 i
        = Except.ok (writeCell df2 i col
            (match df.rows[i]? with
             | some r => omul ((r.attrs.lookup ac).getD none)
                 ((r.attrs.lookup hc).getD none)
             | none => none)) := by
    intro df2 i h2 hi
    have hidf : i < df.rows.length := by omega
    have hi2 : i < df2.rows.length := by have := h2.1; omega
    have hr0 : df.rows[i]? = some df.rows[i] := List.getElem?_eq_getElem hidf
    obtain ⟨a0, ha0⟩ :=
      Option.isSome_iff_exists.mp (Ha df.rows[i] (List.getElem_mem hidf))
    obtain ⟨h0, hh0⟩ :=
      Option.isSome_iff_exists.mp (Hh df.rows[i] (List.getElem_mem hidf))
    have hr2 : df2.rows[i]? = some df2.rows[i] := List.getElem?_eq_getElem hi2
    have hla : (df2.rows[i]).attrs.lookup ac = some a0 := by
      rw [loop_lookup df df2 col ac hcol hac h2 i hidf hi2, ha0]
    have hlh : (df2.rows[i]).attrs.lookup hc = some h0 := by
      rw [loop_lookup df df2 col hc hcol hhc h2 i hidf hi2, hh0]
    simp only [rowAt, hr2]
    simp only [Bind.bind, Except.bind, getAttr, hla, hlh, hr0, ha0, hh0,
      Option.getD]
  obtain ⟨dfF, hrun, hout, hcells, _⟩ :=
    runRowsAux_writes col (setColNone df col) _ _ hstep
      (List.range (setColNone df col).rows.length)
      (List.nodup_range _) (fun i hi => List.mem_range.mp hi) (setColNone df col)
      (eqOutside_refl col _)
  refine ⟨dfF, ?_, eqOutside_trans col df _ dfF hstdf hout, ?_⟩
  · simp only [volume, runRows]
    rw [if_pos trivial, hrun]
    rfl
  · intro i r hr a h hla hlh
    have hidf : i < df.rows.length := by
      rcases List.getElem?_eq_some.mp hr with ⟨hlt, _⟩
      exact hlt
    have hcell := hcells i (List.mem_range.mpr (by omega))
    rw [hcell]
    simp [hr, hla, hlh]

theorem floor_area_false_ok (df : GeoDataFrame α) (col ac hc : String)
    (hcol : col ≠ "geometry") (hhc : hc ≠ col)
    (Hg : ∀ r ∈ df.rows, r.geometry.isSome = true)
    (Hh : ∀ r ∈ df.rows, (r.attrs.lookup hc).isSome = true) :
    ∃ st2 : GeoDataFrame α,
      floor_area df col ac hc false =
        .ok ⟨st2, some st2, ["Calculating floor areas...", "Floor areas calculated."]⟩ ∧
      EqOutside col df st2 ∧
      ∀ i r, df.rows[i]? = some r → ∀ g h, r.geometry = some g →
        r.attrs.lookup hc = some h →
        cellAt st2 i col = Option.some (omul (some g.area) (ofloorDiv3 h)) := by
  classical
  have hstdf : EqOutside col df (setColNone df col) := eqOutside_setColNone df col hcol
  have hlen : (setColNone df col).rows.length = df.rows.length := setColNone_length df col
  have hstep : ∀ df2 i, EqOutside col (setColNone df col) df2 →
      i < (setColNone df col).rows.length →
      (fun dfx i => do
        let r ← rowAt dfx i
        let g ← getGeom r "area"
        let h ← getAttr r hc
        Except.ok (writeCell dfx i col (omul (some g.area) (ofloorDiv3 h)))) df2 i
        = Except.ok (writeCell df2 i col
            (match df.rows[i]? with
             | some r => omul (r.geometry.map Geometry.area)
                 (ofloorDiv3 ((r.attrs.lookup hc).getD none))
             | none => none)) := by
    intro df2 i h2 hi
    have hidf : i < df.rows.length := by omega
    have hi2 : i < df2.rows.length := by have := h2.1; omega
    have hr0 : df.rows[i]? = some df.rows[i] := List.getElem?_eq_getElem hidf
    obtain ⟨g0, hg0⟩ :=
      Option.isSome_iff_exists.mp (Hg df.rows[i] (List.getElem_mem hidf))
    obtain ⟨h0, hh0⟩ :=
      Option.isSome_iff_exists.mp (Hh df.rows[i] (List.getElem_mem hidf))
    have hr2 : df2.rows[i]? = some df2.rows[i] := List.getElem?_eq_getElem hi2
    have hgeom2 : (df2.rows[i]).geometry = some g0 := by
      rw [loop_geometry df df2 col hcol h2 i hidf hi2, hg0]
    have hlh : (df2.rows[i]).attrs.lookup hc = some h0 := by
      rw [loop_lookup df df2 col hc hcol hhc h2 i hidf hi2, hh0]
    simp only [rowAt, hr2]
    simp only [Bind.bind, Except.bind, getGeom, getAttr, hgeom2, hlh, hr0, hg0,
      hh0, Option.getD, Option.map]
  obtain ⟨dfF, hrun, hout, hcells, _⟩ :=
    runRowsAux_writes col (setColNone df col) _ _ hstep
      (List.range (setColNone df col).rows.length)
      (List.nodup_range _) (fun i hi => List.mem_range.mp hi) (setColNone df col)
      (eqOutside_refl col _)
  refine ⟨dfF, ?_, eqOutside_trans col df _ dfF hstdf hout, ?_⟩
  · simp only [floor_area, runRows]
    rw [if_neg (by decide), hrun]
    rfl
  · intro i r hr g h hg hlh
    have hidf : i < df.rows.length := by
      rcases List.getElem?_eq_some.mp hr with ⟨hlt, _⟩
      exact hlt
    have hcell := hcells i (List.mem_range.mpr (by omega))
    rw [hcell]
    simp [hr, hg, hlh]

omit [FloorRing α] in
theorem longest_axis_length_ok (sqrtq : ℚ → α) (df : GeoDataFrame α)
    (col : String) (hcol : col ≠ "geometry")
    (Hg : ∀ r ∈ df.rows,
      ((r.geometry.bind Geometry.convexHullExterior).bind make_circle).isSome = true) :
    ∃ st2 : GeoDataFrame α,
      longest_axis_length sqrtq df col =
        .ok ⟨st2, some st2,
          ["Calculating the longest axis...", "The longest axis calculated."]⟩ ∧
      EqOutside col df st2 ∧
      ∀ i r, df.rows[i]? = some r → ∀ g, r.geometry = some g →
        ∀ cs, g.convexHullExterior = some cs →
        ∀ x y rsq, make_circle cs = some (x, y, rsq) →
        cellAt st2 i col = Option.some (some (sqrtq rsq * 2)) := by
  classical
  have hstdf : EqOutside col df (setColNone df col) := eqOutside_setColNone df col hcol
  have hlen : (setColNone df col).rows.length = df.rows.length := setColNone_length df col
  have hstep : ∀ df2 i, EqOutside col (setColNone df col) df2 →
      i < (setColNone df col).rows.length →
      (fun dfx i => do
        let r ← rowAt dfx i
        let g ← getGeom r "convex_hull"
        let coords ← match g.convexHullExterior with
          | some cs => Except.ok cs
          | none => Except.error (.attributeError "exterior")
        let v ← longest_axis sqrtq coords
        Except.ok (writeCell dfx i col (some v))) df2 i
        = Except.ok (writeCell df2 i col
            (match df.rows[i]? with
             | some r => ((r.geometry.bind Geometry.convexHullExterior).bind
                 make_circle).map fun t => sqrtq t.2.2 * 2
             | none => none)) := by
    intro df2 i h2 hi
    have hidf : i < df.rows.length := by omega
    have hi2 : i < df2.rows.length := by have := h2.1; omega
    have hr0 : df.rows[i]? = some df.rows[i] := List.getElem?_eq_getElem hidf
    obtain ⟨trip, htrip⟩ :=
      Option.isSome_iff_exists.mp (Hg df.rows[i] (List.getElem_mem hidf))
    obtain ⟨g0, hg0, rest⟩ :
        ∃ g0, (df.rows[i]).geometry = some g0 ∧
          g0.convexHullExterior.bind make_circle = some trip := by
      cases hg : (df.rows[i]).geometry with
      | none => rw [hg] at htrip; simp [Option.bind] at htrip
      | some g0 => rw [hg] at htrip; exact ⟨g0, rfl, by simpa using htrip⟩
    obtain ⟨cs0, hcs0, hmc0⟩ :
        ∃ cs0, g0.convexHullExterior = some cs0 ∧ make_circle cs0 = some trip := by
      cases hcs : g0.convexHullExterior with
      | none => rw [hcs] at rest; simp [Option.bind] at rest
      | some cs0 => rw [hcs] at rest; exact ⟨cs0, rfl, by simpa using rest⟩
    have hr2 : df2.rows[i]? = some df2.rows[i] := List.getElem?_eq_getElem hi2
    have hgeom2 : (df2.rows[i]).geometry = some g0 := by
      rw [loop_geometry df df2 col hcol h2 i hidf hi2, hg0]
    simp only [rowAt, hr2]
    simp only [Bind.bind, Except.bind, getGeom, hgeom2, hcs0, longest_axis,
      hmc0, hr0, hg0, Option.bind, Option.map]
  obtain ⟨dfF, hrun, hout, hcells, _⟩ :=
    runRowsAux_writes col (setColNone df col) _ _ hstep
      (List.range (setColNone df col).rows.length)
      (List.nodup_range _) (fun i hi => List.mem_range.mp hi) (setColNone df col)
      (eqOutside_refl col _)
  refine ⟨dfF, ?_, eqOutside_trans col df _ dfF hstdf hout, ?_⟩
  · simp only [longest_axis_length, runRows]
    rw [hrun]
    rfl
  · intro i r hr g hg cs hcs x y rsq hmc
    have hidf : i < df.rows.length := by
      rcases List.getElem?_eq_some.mp hr with ⟨hlt, _⟩
      exact hlt
    have hcell := hcells i (List.mem_range.mpr (by omega))
    rw [hcell]
    simp [hr, hg, hcs, hmc]

omit [FloorRing α] in
/-- The neighbour summation of `effective_mesh`, evaluated in any loop state:
it produces the NaN-propagating sum of the original frame's area cells. -/
theorem sumNeighbours_loop (df df2 : GeoDataFrame α) (col ac : String)
    (hcol : col ≠ "geometry") (hac : ac ≠ col)
    (h2 : EqOutside col (setColNone df col) df2)
    (Ha : ∀ r ∈ df.rows, (r.attrs.lookup ac).isSome = true) :
    ∀ (ns : List Nat), (∀ j ∈ ns, j < df.rows.length) → ∀ acc : Option α,
      sumNeighbours df2 ac ns acc =
        .ok (ns.foldl
          (fun a n => oadd a ((((df.rows[n]?).bind fun rn => rn.attrs.lookup ac)).getD none))
          acc) := by
  intro ns
  induction ns with
  | nil => intro _ acc; rfl
  | cons n ns ih =>
    intro hb acc
    have hn : n < df.rows.length := hb n (List.mem_cons_self n ns)
    have hn2 : n < df2.rows.length := by
      have e1 := h2.1
      have e2 := setColNone_length df col
      omega
    have hrn : df.rows[n]? = some df.rows[n] := List.getElem?_eq_getElem hn
    have hrn2 : df2.rows[n]? = some df2.rows[n] := List.getElem?_eq_getElem hn2
    obtain ⟨cn, hcn⟩ :=
      Option.isSome_iff_exists.mp (Ha df.rows[n] (List.getElem_mem hn))
    have hlook2 : (df2.rows[n]).attrs.lookup ac = some cn := by
      rw [loop_lookup df df2 col ac hcol hac h2 n hn hn2, hcn]
    simp only [sumNeighbours, iloc, hrn2]
    simp only [Bind.bind, Except.bind, getAttr, hlook2]
    rw [ih (fun j hj => hb j (List.mem_cons_of_mem n hj))]
    simp [List.foldl_cons, hrn, hcn]

omit [FloorRing α] in
theorem effective_mesh_ok (df : GeoDataFrame α) (col : String)
    (sw : Nat → List Nat) (ac : String)
    (hcol : col ≠ "geometry") (hac : ac ≠ col)
    (Ha : ∀ r ∈ df.rows, (r.attrs.lookup ac).isSome = true)
    (Hn : ∀ i, i < df.rows.length → ∀ j ∈ sw i, j < df.rows.length) :
    ∃ st2 : GeoDataFrame α,
      effective_mesh df col sw ac =
        .ok ⟨st2, none, ["Calculating effective mesh size..."]⟩ ∧
      EqOutside col df st2 ∧
      ∀ i, i < df.rows.length →
        cellAt st2 i col = Option.some
          (((sw i).foldl
            (fun a n => oadd a ((((df.rows[n]?).bind fun rn => rn.attrs.lookup ac)).getD none))
            ((((df.rows[i]?).bind fun r => r.attrs.lookup ac)).getD none)).map
              fun t => t / (((sw i).length : α) + 1)) := by
  classical
  have hstdf : EqOutside col df (setColNone df col) := eqOutside_setColNone df col hcol
  have hlen : (setColNone df col).rows.length = df.rows.length := setColNone_length df col
  have hstep : ∀ df2 i, EqOutside col (setColNone df col) df2 →
      i < (setColNone df col).rows.length →
      (fun dfx i => do
        let r ← rowAt dfx i
        let neighbours := sw i
        let own ← getAttr r ac
        let total ← sumNeighbours dfx ac neighbours own
        Except.ok (writeCell dfx i col
          (total.map fun t => t / ((neighbours.length : α) + 1)))) df2 i
        = Except.ok (writeCell df2 i col
            (((sw i).foldl
              (fun a n => oadd a ((((df.rows[n]?).bind fun rn => rn.attrs.lookup ac)).getD none))
              ((((df.rows[i]?).bind fun r => r.attrs.lookup ac)).getD none)).map
                fun t => t / (((sw i).length : α) + 1))) := by
    intro df2 i h2 hi
    have hidf : i < df.rows.length := by omega
    have hi2 : i < df2.rows.length := by have := h2.1; omega
    have hr0 : df.rows[i]? = some df.rows[i] := List.getElem?_eq_getElem hidf
    obtain ⟨ci, hci⟩ :=
      Option.isSome_iff_exists.mp (Ha df.rows[i] (List.getElem_mem hidf))
    have hr2 : df2.rows[i]? = some df2.rows[i] := List.getElem?_eq_getElem hi2
    have hlook2 : (df2.rows[i]).attrs.lookup ac = some ci := by
      rw [loop_lookup df df2 col ac hcol hac h2 i hidf hi2, hci]
    have hsum := sumNeighbours_loop df df2 col ac hcol hac h2 Ha (sw i)
      (Hn i hidf) ci
    simp only [rowAt, hr2]
    simp only [Bind.bind, Except.bind, getAttr, hlook2, hsum, hr0, hci,
      Option.bind, Option.getD]
  obtain ⟨dfF, hrun, hout, hcells, _⟩ :=
    runRowsAux_writes col (setColNone df col) _ _ hstep
      (List.range (setColNone df col).rows.length)
      (List.nodup_range _) (fun i hi => List.mem_range.mp hi) (setColNone df col)
      (eqOutside_refl col _)
  refine ⟨dfF, ?_, eqOutside_trans col df _ dfF hstdf hout, ?_⟩
  · simp only [effective_mesh, runRows]
    rw [hrun]
  · intro i hidf
    exact hcells i (List.mem_range.mpr (by omega))

omit [FloorRing α] in
/-- The neighbour summation of `effective_mesh` raises `IndexError` on the
first out-of-range neighbour id (provided the area column exists, so that the
in-range prefix is processed without a `KeyError`). -/
theorem sumNeighbours_bad (df df2 : GeoDataFrame α) (col ac : String)
    (hcol : col ≠ "geometry") (hac : ac ≠ col)
    (h2 : EqOutside col (setColNone df col) df2)
    (Ha : ∀ r ∈ df.rows, (r.attrs.lookup ac).isSome = true) :
    ∀ (ns : List Nat) (acc : Option α), (∃ j ∈ ns, df.rows.length ≤ j) →
      ∃ m, df.rows.length ≤ m ∧
        sumNeighbours df2 ac ns acc = .error (.indexError m) := by
  have hlen2 : df2.rows.length = df.rows.length := by
    have e1 := h2.1
    have e2 := setColNone_length df col
    omega
  intro ns
  induction ns with
  | nil => intro acc h; simp at h
  | cons j0 ns ih =>
    intro acc hbad
    by_cases hj0 : df.rows.length ≤ j0
    · refine ⟨j0, hj0, ?_⟩
      have hnone : df2.rows[j0]? = none := List.getElem?_eq_none (by omega)
      simp only [sumNeighbours, iloc, hnone]
      rfl
    · have hj0lt : j0 < df.rows.length := by omega
      have hn2 : j0 < df2.rows.length := by omega
      have hrn2 : df2.rows[j0]? = some df2.rows[j0] := List.getElem?_eq_getElem hn2
      obtain ⟨cn, hcn⟩ :=
        Option.isSome_iff_exists.mp (Ha df.rows[j0] (List.getElem_mem hj0lt))
      have hlook2 : (df2.rows[j0]).attrs.lookup ac = some cn := by
        rw [loop_lookup df df2 col ac hcol hac h2 j0 hj0lt hn2, hcn]
      obtain ⟨j, hj, hge⟩ := hbad
      have hjns : j ∈ ns := by
        rcases List.mem_cons.mp hj with h | h
        · exact absurd (h ▸ hge) hj0
        · exact h
      obtain ⟨m, hm, hsum⟩ := ih (oadd acc cn) ⟨j, hjns, hge⟩
      refine ⟨m, hm, ?_⟩
      simp only [sumNeighbours, iloc, hrn2]
      simp only [Bind.bind, Except.bind, getAttr, hlook2]
      exact hsum

omit [FloorRing α] in
/-- If some row reachable by the loop has an out-of-range neighbour id, the
`effective_mesh` loop aborts with an uncaught `IndexError` carrying an
out-of-range position. -/
theorem mesh_loop_bad (df : GeoDataFrame α) (col ac : String)
    (sw : Nat → List Nat) (hcol : col ≠ "geometry") (hac : ac ≠ col)
    (Ha : ∀ r ∈ df.rows, (r.attrs.lookup ac).isSome = true) :
    ∀ (l : List Nat) (df2 : GeoDataFrame α),
      EqOutside col (setColNone df col) df2 →
      (∀ i ∈ l, i < df.rows.length) →
      (∃ i ∈ l, ∃ j ∈ sw i, df.rows.length ≤ j) →
      ∃ m st2, df.rows.length ≤ m ∧
        runRowsAux (fun dfx i => do
          let r ← rowAt dfx i
          let neighbours := sw i
          let own ← getAttr r ac
          let total ← sumNeighbours dfx ac neighbours own
          Except.ok (writeCell dfx i col
            (total.map fun t => t / ((neighbours.length : α) + 1)))) l df2
          = .error (.indexError m, st2) := by
  intro l
  induction l with
  | nil => intro df2 _ _ h; simp at h
  | cons i is ih =>
    intro df2 h2 hrange hbad
    have hidf : i < df.rows.length := hrange i (List.mem_cons_self i is)
    have hi2 : i < df2.rows.length := by
      have e1 := h2.1
      have e2 := setColNone_length df col
      omega
    have hr2 : df2.rows[i]? = some df2.rows[i] := List.getElem?_eq_getElem hi2
    obtain ⟨ci, hci⟩ :=
      Option.isSome_iff_exists.mp (Ha df.rows[i] (List.getElem_mem hidf))
    have hlook2 : (df2.rows[i]).attrs.lookup ac = some ci := by
      rw [loop_lookup df df2 col ac hcol hac h2 i hidf hi2, hci]
    by_cases hbi : ∃ j ∈ sw i, df.rows.length ≤ j
    · obtain ⟨m, hm, hsum⟩ :=
        sumNeighbours_bad df df2 col ac hcol hac h2 Ha (sw i) ci hbi
      refine ⟨m, df2, hm, ?_⟩
      simp only [runRowsAux, rowAt, hr2]
      simp only [Bind.bind, Except.bind, getAttr, hlook2, hsum]
    · push_neg at hbi
      have hsum := sumNeighbours_loop df df2 col ac hcol hac h2 Ha (sw i) hbi ci
      obtain ⟨i2, hi2mem, j, hj, hge⟩ := hbad
      have hi2is : i2 ∈ is := by
        rcases List.mem_cons.mp hi2mem with h | h
        · subst h
          exact absurd hge (not_le.mpr (hbi j hj))
        · exact h
      simp only [runRowsAux, rowAt, hr2]
      simp only [Bind.bind, Except.bind, getAttr, hlook2, hsum]
      exact ih _ (eqOutside_writeCell col _ df2 i _ h2)
        (fun a ha => hrange a (List.mem_cons_of_mem i ha)) ⟨i2, hi2is, j, hj, hge⟩

omit [FloorRing α] in
/-- `effective_mesh` on a neighbour relation referencing an id outside the
collection (with the area column present everywhere): the call raises an
uncaught `IndexError` carrying an out-of-range position. -/
theorem effective_mesh_bad_neighbor (df : GeoDataFrame α) (col : String)
    (sw : Nat → List Nat) (ac : String)
    (hcol : col ≠ "geometry") (hac : ac ≠ col)
    (Ha : ∀ r ∈ df.rows, (r.attrs.lookup ac).isSome = true)
    (hbad : ∃ i, i < df.rows.length ∧ ∃ j ∈ sw i, df.rows.length ≤ j) :
    ∃ m st2, df.rows.length ≤ m ∧
      effective_mesh df col sw ac =
        .error (.indexError m, st2, ["Calculating effective mesh size..."]) := by
  obtain ⟨i, hi, j, hj, hge⟩ := hbad
  obtain ⟨m, st2, hm, hrun⟩ :=
    mesh_loop_bad df col ac sw hcol hac Ha
      (List.range (setColNone df col).rows.length) (setColNone df col)
      (eqOutside_refl col _)
      (fun a ha => by
        have := List.mem_range.mp ha
        have := setColNone_length df col
        omega)
      ⟨i, List.mem_range.mpr (by rw [setColNone_length]; omega), j, hj, hge⟩
  refine ⟨m, st2, hm, ?_⟩
  simp only [effective_mesh, runRows]
  rw [hrun]

omit [LinearOrderedField α] [FloorRing α] in
/-- With `area_calculated = true` and the area column absent, `volume`
catches the `KeyError` raised at the very first row: it returns `None`
normally, prints the single error line, and leaves the frame in the state
produced by the column creation (the output column null everywhere, nothing
else touched). -/
theorem volume_missing_area [Mul α] (df : GeoDataFrame α) (col ac hc : String)
    (hcol : col ≠ "geometry") (hac : ac ≠ col)
    (r0 : Row α) (rest : List (Row α)) (hrows : df.rows = r0 :: rest)
    (hmiss : r0.attrs.lookup ac = none) :
    volume df col ac hc true =
      .ok ⟨setColNone df col, none, ["Calculating volumes...", errArea ac]⟩ := by
  have hr0 : df.rows[0]? = some r0 := by rw [hrows]; simp
  have hst0 : (setColNone df col).rows[0]? =
      some { r0 with attrs := setAttr r0.attrs col none } := by
    rw [setColNone_getElem df col hcol 0, hr0]
    rfl
  have hlook : (setAttr r0.attrs col none).lookup ac = none := by
    rw [lookup_setAttr_ne _ _ _ _ hac]; exact hmiss
  have hlen : (setColNone df col).rows.length = rest.length + 1 := by
    rw [setColNone_length, hrows]; rfl
  have hfail : runRows (setColNone df col) (fun dfx i => do
      let r ← rowAt dfx i
      let a ← getAttr r ac
      let h ← getAttr r hc
      Except.ok (writeCell dfx i col (omul a h)))
      = .error (.keyError ac, setColNone df col) := by
    rw [runRows, hlen, List.range_succ_eq_map]
    simp only [runRowsAux, rowAt, hst0]
    simp only [Bind.bind, Except.bind, getAttr, hlook]
  simp only [volume]
  rw [if_pos trivial, hfail]
  rfl

omit [LinearOrderedField α] [FloorRing α] in
/-- Like `volume_missing_area`, but `floor_area` additionally returns the
frame (its trailing `return objects` is at function level). -/
theorem floor_area_missing_area [LinearOrderedField α] [FloorRing α]
    (df : GeoDataFrame α) (col ac hc : String)
    (hcol : col ≠ "geometry") (hac : ac ≠ col)
    (r0 : Row α) (rest : List (Row α)) (hrows : df.rows = r0 :: rest)
    (hmiss : r0.attrs.lookup ac = none) :
    floor_area df col ac hc true =
      .ok ⟨setColNone df col, some (setColNone df col),
        ["Calculating floor areas...", errArea ac]⟩ := by
  have hr0 : df.rows[0]? = some r0 := by rw [hrows]; simp
  have hst0 : (setColNone df col).rows[0]? =
      some { r0 with attrs := setAttr r0.attrs col none } := by
    rw [setColNone_getElem df col hcol 0, hr0]
    rfl
  have hlook : (setAttr r0.attrs col none).lookup ac = none := by
    rw [lookup_setAttr_ne _ _ _ _ hac]; exact hmiss
  have hlen : (setColNone df col).rows.length = rest.length + 1 := by
    rw [setColNone_length, hrows]; rfl
  have hfail : runRows (setColNone df col) (fun dfx i => do
      let r ← rowAt dfx i
      let a ← getAttr r ac
      let h ← getAttr r hc
      Except.ok (writeCell dfx i col (omul a (ofloorDiv3 h))))
      = .error (.keyError ac, setColNone df col) := by
    rw [runRows, hlen, List.range_succ_eq_map]
    simp only [runRowsAux, rowAt, hst0]
    simp only [Bind.bind, Except.bind, getAttr, hlook]
  simp only [floor_area]
  rw [if_pos trivial, hfail]
  rfl

omit [LinearOrderedField α] [FloorRing α] in
/-- Like `floor_area_missing_area` for `courtyard_area`; the first row must
carry a geometry, because `Polygon(row['geometry'].exterior)` is evaluated
before the failing column lookup. -/
theorem courtyard_area_missing_area [Sub α] (df : GeoDataFrame α)
    (col ac : String) (hcol : col ≠ "geometry") (hac : ac ≠ col)
    (r0 : Row α) (rest : List (Row α)) (hrows : df.rows = r0 :: rest)
    (g0 : Geometry α) (hg0 : r0.geometry = some g0)
    (hmiss : r0.attrs.lookup ac = none) :
    courtyard_area df col ac true =
      .ok ⟨setColNone df col, some (setColNone df col),
        ["Calculating courtyard areas...", errArea ac]⟩ := by
  have hr0 : df.rows[0]? = some r0 := by rw [hrows]; simp
  have hst0 : (setColNone df col).rows[0]? =
      some { r0 with attrs := setAttr r0.attrs col none } := by
    rw [setColNone_getElem df col hcol 0, hr0]
    rfl
  have hlook : (setAttr r0.attrs col none).lookup ac = none := by
    rw [lookup_setAttr_ne _ _ _ _ hac]; exact hmiss
  have hlen : (setColNone df col).rows.length = rest.length + 1 := by
    rw [setColNone_length, hrows]; rfl
  have hfail : runRows (setColNone df col) (fun dfx i => do
      let r ← rowAt dfx i
      let g ← getGeom r "exterior"
      let a ← getAttr r ac
      Except.ok (writeCell dfx i col (osub (some g.exteriorArea) a)))
      = .error (.keyError ac, setColNone df col) := by
    rw [runRows, hlen, List.range_succ_eq_map]
    simp only [runRowsAux, rowAt, hst0]
    simp only [Bind.bind, Except.bind, getGeom, hg0, getAttr, hlook]
  simp only [courtyard_area]
  rw [if_pos trivial, hfail]
  rfl

end Momepy

namespace Momepy

variable {α : Type}

theorem area_ret (df : GeoDataFrame α) (col : String) (res : CallOk α)
    (h : area df col = .ok res) : res.ret = some res.state := by
  simp only [area] at h
  split at h
  · cases h; rfl
  · cases h

theorem perimeter_ret (df : GeoDataFrame α) (col : String) (res : CallOk α)
    (h : perimeter df col = .ok res) : res.ret = some res.state := by
  simp only [perimeter] at h
  split at h
  · cases h; rfl
  · cases h

theorem height_os_ret (df : GeoDataFrame α) (col orig : String) (res : CallOk α)
    (h : height_os df col orig = .ok res) : res.ret = some res.state := by
  simp only [height_os] at h
  split at h
  · cases h; rfl
  · cases h

theorem height_prg_ret [LinearOrderedField α] (df : GeoDataFrame α)
    (col fc ft : String) (res : CallOk α)
    (h : height_prg df col fc ft = .ok res) : res.ret = some res.state := by
  simp only [height_prg] at h
  split at h
  · cases h; rfl
  · cases h

theorem volume_ret [Mul α] (df : GeoDataFrame α) (col ac hc : String)
    (b : Bool) (res : CallOk α) (h : volume df col ac hc b = .ok res) :
    res.ret = if b then none else some res.state := by
  cases b with
  | true =>
    simp only [volume] at h
    rw [if_pos trivial] at h
    split at h
    · cases h; rfl
    · cases h; rfl
    · cases h
  | false =>
    simp only [volume] at h
    rw [if_neg (by decide)] at h
    split at h
    · cases h; rfl
    · cases h

theorem floor_area_ret [LinearOrderedField α] [FloorRing α]
    (df : GeoDataFrame α) (col ac hc : String) (b : Bool) (res : CallOk α)
    (h : floor_area df col ac hc b = .ok res) : res.ret = some res.state := by
  cases b with
  | true =>
    simp only [floor_area] at h
    rw [if_pos trivial] at h
    split at h
    · cases h; rfl
    · cases h; rfl
    · cases h
  | false =>
    simp only [floor_area] at h
    rw [if_neg (by decide)] at h
    split at h
    · cases h; rfl
    · cases h

theorem courtyard_area_ret [Sub α] (df : GeoDataFrame α) (col ac : String)
    (b : Bool) (res : CallOk α) (h : courtyard_area df col ac b = .ok res) :
    res.ret = some res.state := by
  cases b with
  | true =>
    simp only [courtyard_area] at h
    rw [if_pos trivial] at h
    split at h
    · cases h; rfl
    · cases h; rfl
    · cases h
  | false =>
    simp only [courtyard_area] at h
    rw [if_neg (by decide)] at h
    split at h
    · cases h; rfl
    · cases h

theorem longest_axis_length_ret [LinearOrderedField α] (sqrtq : ℚ → α)
    (df : GeoDataFrame α) (col : String) (res : CallOk α)
    (h : longest_axis_length sqrtq df col = .ok res) :
    res.ret = some res.state := by
  simp only [longest_axis_length] at h
  split at h
  · cases h; rfl
  · cases h

theorem effective_mesh_ret [LinearOrderedField α] (df : GeoDataFrame α)
    (col : String) (sw : Nat → List Nat) (ac : String) (res : CallOk α)
    (h : effective_mesh df col sw ac = .ok res) : res.ret = none := by
  simp only [effective_mesh] at h
  split at h
  · cases h; rfl
  · cases h

end Momepy

namespace Momepy

/-- C3: the spec says `longestAxis` writes 0 and does not fail on a null or
non-polygon geometry, and the source indeed defines the fallback helper
`sort_NoneType` implementing exactly that — but the row loop of
`longest_axis_length` never calls it: it applies `longest_axis` to
`row['geometry'].convex_hull.exterior.coords` directly, so a null geometry
raises an uncaught `AttributeError` on `.convex_hull` (and a degenerate
geometry whose convex hull has no exterior ring raises one on `.exterior`);
nothing is written for the failing object and the call aborts. -/
theorem longest_axis_null_geometry_raises :
    sort_NoneType (α := ℚ) id none = .ok 0 ∧
    sort_NoneType (α := ℚ) id (some ⟨.point, 0, 0, 0, [], none⟩) = .ok 0 ∧
    longest_axis_length (α := ℚ) id ⟨[⟨none, []⟩]⟩ "long_axis" =
      .error (.attributeError "convex_hull", ⟨[⟨none, [("long_axis", none)]⟩]⟩,
        ["Calculating the longest axis..."]) ∧
    longest_axis_length (α := ℚ) id ⟨[⟨some ⟨.point, 0, 0, 0, [], none⟩, []⟩]⟩
        "long_axis" =
      .error (.attributeError "exterior",
        ⟨[⟨some ⟨.point, 0, 0, 0, [], none⟩, [("long_axis", none)]⟩]⟩,
        ["Calculating the longest axis..."]) :=
  ⟨rfl, rfl, rfl, rfl⟩

/-- C4 counterexample: with `area_calculated = true` and the area column
absent, `volume` does not fail with any per-object condition, and the other
objects of the batch are not processed: the call returns `None` normally with
a single printed error line, and the output column of every row (including
rows after the failing one) is left null. -/
theorem volume_missing_area_returns_ok :
    volume (α := ℚ)
        ⟨[⟨none, [("height", some 9)]⟩, ⟨none, [("height", some 5)]⟩]⟩
        "volume" "area" "height" true =
      .ok ⟨⟨[⟨none, [("height", some 9), ("volume", none)]⟩,
             ⟨none, [("height", some 5), ("volume", none)]⟩]⟩,
        none, ["Calculating volumes...", errArea "area"]⟩ := rfl

/-- C4 amended: when the named area column is absent, `volume`, `floor_area`
and `courtyard_area` (with `area_calculated = true`) catch the `KeyError`
raised at the first row, print one error line naming the missing column (the
identical text in all three, not naming the metric), leave the output column
null for every object, and return normally; no per-object failures are
collected — the first failure ends the pass for the whole batch. -/
theorem missing_area_prints_and_keeps_nulls (df : GeoDataFrame ℚ)
    (col ac hc : String) (hcol : col ≠ "geometry") (hac : ac ≠ col)
    (r0 : Row ℚ) (rest : List (Row ℚ)) (hrows : df.rows = r0 :: rest)
    (hmiss : r0.attrs.lookup ac = none)
    (g0 : Geometry ℚ) (hg0 : r0.geometry = some g0) :
    volume df col ac hc true =
      .ok ⟨setColNone df col, none, ["Calculating volumes...", errArea ac]⟩ ∧
    floor_area df col ac hc true =
      .ok ⟨setColNone df col, some (setColNone df col),
        ["Calculating floor areas...", errArea ac]⟩ ∧
    courtyard_area df col ac true =
      .ok ⟨setColNone df col, some (setColNone df col),
        ["Calculating courtyard areas...", errArea ac]⟩ ∧
    ∀ i, i < df.rows.length → cellAt (setColNone df col) i col = some none :=
  ⟨volume_missing_area df col ac hc hcol hac r0 rest hrows hmiss,
   floor_area_missing_area df col ac hc hcol hac r0 rest hrows hmiss,
   courtyard_area_missing_area df col ac hcol hac r0 rest hrows g0 hg0 hmiss,
   fun i hi => cellAt_setColNone_self df col hcol i hi⟩

/-- C4 witness. -/
theorem missing_area_prints_and_keeps_nulls_witness :
    (volume (α := ℚ) ⟨[⟨some ⟨.polygon, 4, 8, 4, [], none⟩, []⟩]⟩
        "volume" "area" "height" true =
      .ok ⟨setColNone ⟨[⟨some ⟨.polygon, 4, 8, 4, [], none⟩, []⟩]⟩ "volume", none,
        ["Calculating volumes...", errArea "area"]⟩) ∧
    (∀ i, i < 1 →
      cellAt (setColNone (⟨[⟨some ⟨.polygon, 4, 8, 4, [], none⟩, []⟩]⟩ :
        GeoDataFrame ℚ) "volume") i "volume" = some none) :=
  ⟨(missing_area_prints_and_keeps_nulls ⟨[⟨some ⟨.polygon, 4, 8, 4, [], none⟩, []⟩]⟩
      "volume" "area" "height" (by decide) (by decide) _ [] rfl rfl _ rfl).1,
   fun i hi =>
    (missing_area_prints_and_keeps_nulls ⟨[⟨some ⟨.polygon, 4, 8, 4, [], none⟩, []⟩]⟩
      "volume" "area" "height" (by decide) (by decide) _ [] rfl rfl _ rfl).2.2.2 i hi⟩

/-- C9: the failed `volume`/`floor_area`/`courtyard_area` call (missing area
column, `area_calculated = true`) terminates without propagating any
exception — only a message is printed — yet the collection has already been
mutated: the new output column exists on every object, filled with nulls. -/
theorem missing_area_still_mutates (df : GeoDataFrame ℚ)
    (col ac hc : String) (hcol : col ≠ "geometry") (hac : ac ≠ col)
    (r0 : Row ℚ) (rest : List (Row ℚ)) (hrows : df.rows = r0 :: rest)
    (hmiss : r0.attrs.lookup ac = none)
    (g0 : Geometry ℚ) (hg0 : r0.geometry = some g0) :
    (∃ res : CallOk ℚ, volume df col ac hc true = .ok res ∧
      res.out = ["Calculating volumes...", errArea ac] ∧
      res.state.rows.length = df.rows.length ∧
      ∀ i, i < df.rows.length → cellAt res.state i col = some none) ∧
    (∃ res : CallOk ℚ, floor_area df col ac hc true = .ok res ∧
      res.out = ["Calculating floor areas...", errArea ac] ∧
      res.state.rows.length = df.rows.length ∧
      ∀ i, i < df.rows.length → cellAt res.state i col = some none) ∧
    (∃ res : CallOk ℚ, courtyard_area df col ac true = .ok res ∧
      res.out = ["Calculating courtyard areas...", errArea ac] ∧
      res.state.rows.length = df.rows.length ∧
      ∀ i, i < df.rows.length → cellAt res.state i col = some none) := by
  refine
    ⟨⟨_, volume_missing_area df col ac hc hcol hac r0 rest hrows hmiss, rfl,
      setColNone_length df col, fun i hi => cellAt_setColNone_self df col hcol i hi⟩,
     ⟨_, floor_area_missing_area df col ac hc hcol hac r0 rest hrows hmiss, rfl,
      setColNone_length df col, fun i hi => cellAt_setColNone_self df col hcol i hi⟩,
     ⟨_, courtyard_area_missing_area df col ac hcol hac r0 rest hrows g0 hg0 hmiss, rfl,
      setColNone_length df col, fun i hi => cellAt_setColNone_self df col hcol i hi⟩⟩

theorem coverSq_cons (c q : Point) (t : List Point) :
    coverSq c (q :: t) = max (distSq c q) (coverSq c t) := rfl

theorem distSq_nonneg_rat (c p : Point) : 0 ≤ distSq c p := by
  simp only [distSq]
  positivity

theorem coverSq_nonneg (c : Point) (ps : List Point) : 0 ≤ coverSq c ps := by
  induction ps with
  | nil => simp [coverSq]
  | cons q t ih => rw [coverSq_cons]; exact le_max_of_le_right ih

theorem coverSq_mem (c : Point) (ps : List Point) :
    ∀ p ∈ ps, distSq c p ≤ coverSq c ps := by
  induction ps with
  | nil => simp
  | cons q t ih =>
    intro p hp
    rw [coverSq_cons]
    rcases List.mem_cons.mp hp with h | h
    · subst h; exact le_max_left _ _
    · exact le_max_of_le_right (ih p h)

theorem coverSq_le (c : Point) (ps : List Point) (b : ℚ) (h0 : 0 ≤ b)
    (h : ∀ p ∈ ps, distSq c p ≤ b) : coverSq c ps ≤ b := by
  induction ps with
  | nil => simpa [coverSq] using h0
  | cons q t ih =>
    rw [coverSq_cons]
    exact max_le (h q (List.mem_cons_self q t))
      (ih fun p hp => h p (List.mem_cons_of_mem q hp))

theorem pickMin_cons (ps : List Point) (init c : Point) (cs : List Point) :
    pickMin ps init (c :: cs) =
      pickMin ps (if coverSq c ps < coverSq init ps then c else init) cs := rfl

theorem pickMin_spec (ps : List Point) :
    ∀ (cands : List Point) (init : Point),
      (pickMin ps init cands = init ∨ pickMin ps init cands ∈ cands) ∧
      coverSq (pickMin ps init cands) ps ≤ coverSq init ps ∧
      ∀ d ∈ cands, coverSq (pickMin ps init cands) ps ≤ coverSq d ps := by
  intro cands
  induction cands with
  | nil => intro init; exact ⟨Or.inl rfl, le_refl _, by simp⟩
  | cons c cs ih =>
    intro init
    rw [pickMin_cons]
    by_cases hlt : coverSq c ps < coverSq init ps
    · rw [if_pos hlt]
      obtain ⟨hmem, hle, hall⟩ := ih c
      refine ⟨?_, hle.trans hlt.le, ?_⟩
      · rcases hmem with h | h
        · exact Or.inr (by rw [h]; exact List.mem_cons_self c cs)
        · exact Or.inr (List.mem_cons_of_mem c h)
      · intro d hd
        rcases List.mem_cons.mp hd with h | h
        · subst h; exact hle
        · exact hall d h
    · rw [if_neg hlt]
      obtain ⟨hmem, hle, hall⟩ := ih init
      refine ⟨?_, hle, ?_⟩
      · rcases hmem with h | h
        · exact Or.inl h
        · exact Or.inr (List.mem_cons_of_mem c h)
      · intro d hd
        rcases List.mem_cons.mp hd with h | h
        · subst h; exact hle.trans (not_lt.mp hlt)
        · exact hall d h

theorem self_mem_candCenters (ps : List Point) (p : Point) (hp : p ∈ ps) :
    p ∈ candCenters ps := by
  simp only [candCenters, List.mem_append]
  exact Or.inl (Or.inl hp)

theorem midpt_mem_candCenters (ps : List Point) (p q : Point)
    (hp : p ∈ ps) (hq : q ∈ ps) : midpt p q ∈ candCenters ps := by
  simp only [candCenters, List.mem_append, List.mem_flatMap, List.mem_map]
  exact Or.inl (Or.inr ⟨p, hp, q, hq, rfl⟩)

theorem circumcenter_mem_candCenters (ps : List Point) (p q s o : Point)
    (hp : p ∈ ps) (hq : q ∈ ps) (hs : s ∈ ps)
    (ho : circumcenter p q s = some o) : o ∈ candCenters ps := by
  simp only [candCenters, List.mem_append, List.mem_flatMap, List.mem_filterMap]
  exact Or.inr ⟨p, hp, q, hq, s, hs, ho⟩

theorem distSq_cast (c p : Point) :
    ((distSq c p : ℚ) : ℝ) = distSq (toR c) (toR p) := by
  simp only [distSq, toR]
  push_cast
  ring

theorem coverSq_cast_le (d : Point) (ps : List Point) (r2 : ℝ) (h0 : 0 ≤ r2)
    (h : ∀ p ∈ ps, distSq (toR d) (toR p) ≤ r2) :
    ((coverSq d ps : ℚ) : ℝ) ≤ r2 := by
  induction ps with
  | nil => simpa [coverSq]
  | cons q t ih =>
    rw [coverSq_cons]
    push_cast [max_def]
    split
    · exact ih fun p hp => h p (List.mem_cons_of_mem q hp)
    · rw [distSq_cast]
      exact h q (List.mem_cons_self q t)

set_option maxHeartbeats 4000000 in
set_option maxRecDepth 100000 in
/-- The minimal enclosing circle of the vertex ring of a square with side 2:
center `(1, 1)`, squared radius 2 (so the radius is `√2` and the diameter is
the square's diagonal `2√2`). -/
theorem make_circle_square :
    make_circle [((0:ℚ),(0:ℚ)), (2,0), (2,2), (0,2), (0,0)] = some (1, 1, 2) := by
  norm_num [make_circle, pickMin, candCenters, coverSq, distSq, midpt,
    circumcenter, List.foldl, List.flatMap, List.map, List.filterMap, List.foldr]

/-- C2: for objects whose geometry is a simple polygon, `longest_axis_length`
writes `2 * r`, where `r` is the radius of the minimal enclosing circle of
the vertex sequence of the convex hull's exterior ring; in particular the
minimal enclosing circle of a square with side 2 has squared radius 2, so the
written value is the diagonal `2√2`. -/
theorem longest_axis_writes_circle_diameter (df : GeoDataFrame ℝ) (col : String)
    (hcol : col ≠ "geometry")
    (Hg : ∀ r ∈ df.rows,
      ((r.geometry.bind Geometry.convexHullExterior).bind make_circle).isSome = true) :
    (∃ st2, longest_axis_length (fun q => Real.sqrt (q : ℝ)) df col =
        .ok ⟨st2, some st2,
          ["Calculating the longest axis...", "The longest axis calculated."]⟩ ∧
      ∀ i r, df.rows[i]? = some r → ∀ g, r.geometry = some g →
        ∀ cs, g.convexHullExterior = some cs →
        ∀ x y rsq, make_circle cs = some (x, y, rsq) →
        cellAt st2 i col = Option.some (some (2 * Real.sqrt (rsq : ℝ)))) ∧
    make_circle [((0:ℚ),(0:ℚ)), (2,0), (2,2), (0,2), (0,0)] = some (1, 1, 2) := by
  refine ⟨?_, make_circle_square⟩
  obtain ⟨st2, hok, _, hval⟩ :=
    longest_axis_length_ok (fun q => Real.sqrt (q : ℝ)) df col hcol Hg
  refine ⟨st2, hok, fun i r hr g hg cs hcs x y rsq hmc => ?_⟩
  rw [hval i r hr g hg cs hcs x y rsq hmc, mul_comm]

/-- C2 witness: a square with side 2 (its convex hull is itself); the written
value is `2√2 ≈ 2.828`, the square's diagonal. -/
theorem longest_axis_writes_circle_diameter_witness :
    ∃ st2, longest_axis_length (fun q => Real.sqrt (q : ℝ))
        (⟨[⟨some ⟨.polygon, 4, 8, 4,
            [((0:ℚ),(0:ℚ)), (2,0), (2,2), (0,2), (0,0)],
            some [((0:ℚ),(0:ℚ)), (2,0), (2,2), (0,2), (0,0)]⟩, []⟩]⟩ :
          GeoDataFrame ℝ) "long_axis" =
        .ok ⟨st2, some st2,
          ["Calculating the longest axis...", "The longest axis calculated."]⟩ ∧
      cellAt st2 0 "long_axis" = Option.some (some (2 * Real.sqrt 2)) := by
  obtain ⟨⟨st2, hok, hval⟩, hsq⟩ :=
    longest_axis_writes_circle_diameter
      (⟨[⟨some ⟨.polygon, 4, 8, 4,
          [((0:ℚ),(0:ℚ)), (2,0), (2,2), (0,2), (0,0)],
          some [((0:ℚ),(0:ℚ)), (2,0), (2,2), (0,2), (0,0)]⟩, []⟩]⟩ :
        GeoDataFrame ℝ) "long_axis" (by decide) (by decide)
  refine ⟨st2, hok, ?_⟩
  have hcell := hval 0 _ rfl _ rfl _ rfl 1 1 2 hsq
  simpa using hcell

/-- C6: when the neighbour relation references an id absent from the object
collection (out of positional range), `effective_mesh` fails while processing,
raising an uncaught `IndexError` that carries an out-of-range position; no
value is silently produced. -/
theorem effective_mesh_unknown_neighbor (df : GeoDataFrame ℚ) (col : String)
    (sw : Nat → List Nat) (ac : String)
    (hcol : col ≠ "geometry") (hac : ac ≠ col)
    (Ha : ∀ r ∈ df.rows, (r.attrs.lookup ac).isSome = true)
    (hbad : ∃ i, i < df.rows.length ∧ ∃ j ∈ sw i, df.rows.length ≤ j) :
    ∃ m st2, df.rows.length ≤ m ∧
      effective_mesh df col sw ac =
        .error (.indexError m, st2, ["Calculating effective mesh size..."]) :=
  effective_mesh_bad_neighbor df col sw ac hcol hac Ha hbad

/-- C6 witness: one object, whose neighbour list references the absent id 3. -/
theorem effective_mesh_unknown_neighbor_witness :
    ∃ m st2, 1 ≤ m ∧
      effective_mesh (⟨[⟨none, [("area", some 5)]⟩]⟩ : GeoDataFrame ℚ)
          "mesh" (fun _ => [3]) "area" =
        .error (.indexError m, st2, ["Calculating effective mesh size..."]) :=
  effective_mesh_unknown_neighbor ⟨[⟨none, [("area", some 5)]⟩]⟩ "mesh"
    (fun _ => [3]) "area" (by decide) (by decide) (by decide)
    ⟨0, by decide, 3, by decide, by decide⟩

/-- C7 counterexample: the storey height in `floor_area` is the hard-coded
literal 3, not a `floor_height_unit` configuration option: on area 100 and
height 9 the code writes `100 * (9 // 3) = 300`, which agrees with the spec
formula only at unit 3 and differs from it at any other configured unit,
e.g. unit 2, where the spec formula gives 400. -/
theorem floor_area_ignores_configured_unit :
    (∃ st2, floor_area
        (⟨[⟨none, [("area", some 100), ("height", some 9)]⟩]⟩ : GeoDataFrame ℚ)
        "floor_area" "area" "height" true =
        .ok ⟨st2, some st2, ["Calculating floor areas...", "Floor areas calculated."]⟩ ∧
      cellAt st2 0 "floor_area" = Option.some (some 300)) ∧
    floor_area_spec_value 100 9 3 = 300 ∧
    floor_area_spec_value 100 9 2 = 400 ∧
    (300 : ℚ) ≠ 400 := by
  refine ⟨?_, ?_, ?_, by norm_num⟩
  · obtain ⟨st2, hok, _, hval⟩ :=
      floor_area_true_ok (⟨[⟨none, [("area", some 100), ("height", some 9)]⟩]⟩ :
        GeoDataFrame ℚ) "floor_area" "area" "height"
        (by decide) (by decide) (by decide) (by decide) (by decide)
    refine ⟨st2, hok, ?_⟩
    rw [hval 0 _ rfl (some 100) (some 9) rfl rfl]
    simp only [omul, ofloorDiv3]
    norm_num
  · simp only [floor_area_spec_value]
    norm_num
  · simp only [floor_area_spec_value]
    norm_num

/-- C7 amended: `floor_area` writes `area * (height // 3)` with the storey
height hard-coded as the literal 3 (the source accepts no `floor_height_unit`
option); the area factor is the stored area column when `area_calculated =
true` and the recomputed `geometry.area` when false.  On area 100 and height
9 the written value is 300. -/
theorem floor_area_formula_hardcoded_three :
    (∀ (df : GeoDataFrame ℚ) (col ac hc : String), col ≠ "geometry" →
      ac ≠ col → hc ≠ col →
      (∀ r ∈ df.rows, (r.attrs.lookup ac).isSome = true) →
      (∀ r ∈ df.rows, (r.attrs.lookup hc).isSome = true) →
      ∃ st2, floor_area df col ac hc true =
          .ok ⟨st2, some st2,
            ["Calculating floor areas...", "Floor areas calculated."]⟩ ∧
        ∀ i r a h, df.rows[i]? = some r → r.attrs.lookup ac = some (some a) →
          r.attrs.lookup hc = some (some h) →
          cellAt st2 i col = Option.some (some (a * ((⌊h / 3⌋ : ℤ) : ℚ)))) ∧
    (∀ (df : GeoDataFrame ℚ) (col ac hc : String), col ≠ "geometry" → hc ≠ col →
      (∀ r ∈ df.rows, r.geometry.isSome = true) →
      (∀ r ∈ df.rows, (r.attrs.lookup hc).isSome = true) →
      ∃ st2, floor_area df col ac hc false =
          .ok ⟨st2, some st2,
            ["Calculating floor areas...", "Floor areas calculated."]⟩ ∧
        ∀ i r g h, df.rows[i]? = some r → r.geometry = some g →
          r.attrs.lookup hc = some (some h) →
          cellAt st2 i col = Option.some (some (g.area * ((⌊h / 3⌋ : ℤ) : ℚ)))) := by
  constructor
  · intro df col ac hc hcol hac hhc Ha Hh
    obtain ⟨st2, hok, _, hval⟩ := floor_area_true_ok df col ac hc hcol hac hhc Ha Hh
    refine ⟨st2, hok, fun i r a h hr hla hlh => ?_⟩
    rw [hval i r hr (some a) (some h) hla hlh]
    rfl
  · intro df col ac hc hcol hhc Hg Hh
    obtain ⟨st2, hok, _, hval⟩ := floor_area_false_ok df col ac hc hcol hhc Hg Hh
    refine ⟨st2, hok, fun i r g h hr hg hlh => ?_⟩
    rw [hval i r hr g (some h) hg hlh]
    rfl

/-- C7 witness: area 100, height 9, `area_calculated = true`. -/
theorem floor_area_formula_hardcoded_three_witness :
    ∃ st2, floor_area
        (⟨[⟨none, [("area", some 100), ("height", some 9)]⟩]⟩ : GeoDataFrame ℚ)
        "floor_area" "area" "height" true =
        .ok ⟨st2, some st2,
          ["Calculating floor areas...", "Floor areas calculated."]⟩ ∧
      cellAt st2 0 "floor_area" =
        Option.some (some (100 * ((⌊(9 : ℚ) / 3⌋ : ℤ) : ℚ))) := by
  obtain ⟨st2, hok, hval⟩ :=
    floor_area_formula_hardcoded_three.1
      ⟨[⟨none, [("area", some 100), ("height", some 9)]⟩]⟩
      "floor_area" "area" "height" (by decide) (by decide) (by decide)
      (by decide) (by decide)
  exact ⟨st2, hok, hval 0 _ 100 9 rfl rfl rfl⟩

/-- C8: a metric call (here `area`, the cited symbol) writes exactly the one
caller-named column: the output column exists on every row afterwards, and
for every row index and every column name other than the supplied one —
including the geometry — the value before and after the call is identical;
no entry is removed and the row count is unchanged. -/
theorem area_writes_exactly_one_column (df : GeoDataFrame ℚ) (col : String)
    (hcol : col ≠ "geometry")
    (Hg : ∀ r ∈ df.rows, r.geometry.isSome = true) :
    ∃ st2, area df col =
        .ok ⟨st2, some st2, ["Calculating areas...", "Areas calculated."]⟩ ∧
      st2.rows.length = df.rows.length ∧
      (∀ i : Nat, (st2.rows[i]?).map Row.geometry =
        (df.rows[i]?).map Row.geometry) ∧
      (∀ (i : Nat) (k : String), k ≠ col →
        (st2.rows[i]?).map (fun r => r.attrs.lookup k) =
          (df.rows[i]?).map (fun r => r.attrs.lookup k)) ∧
      (∀ i, i < df.rows.length → (cellAt st2 i col).isSome = true) ∧
      (∀ i r g, df.rows[i]? = some r → r.geometry = some g →
        cellAt st2 i col = Option.some (some g.area)) := by
  obtain ⟨st2, hok, ⟨hlen, hg, hk⟩, hval⟩ := area_ok df col hcol Hg
  refine ⟨st2, hok, hlen, hg, hk, fun i hi => ?_, fun i r g hr hg2 => hval i r hr g hg2⟩
  have hr : df.rows[i]? = some df.rows[i] := List.getElem?_eq_getElem hi
  obtain ⟨g0, hg0⟩ :=
    Option.isSome_iff_exists.mp (Hg df.rows[i] (List.getElem_mem hi))
  rw [hval i df.rows[i] hr g0 hg0]
  rfl

/-- C8 witness: one object carrying a geometry of area 4 and a pre-existing
column `keep`. -/
theorem area_writes_exactly_one_column_witness :
    ∃ st2, area (⟨[⟨some ⟨.polygon, 4, 8, 4, [], none⟩, [("keep", some 1)]⟩]⟩ :
        GeoDataFrame ℚ) "area_col" =
        .ok ⟨st2, some st2, ["Calculating areas...", "Areas calculated."]⟩ ∧
      cellAt st2 0 "area_col" = Option.some (some 4) ∧
      (st2.rows[0]?).map (fun r => r.attrs.lookup "keep") =
        some (some (some 1)) := by
  obtain ⟨st2, hok, hlen, hg, hk, hsome, hval⟩ :=
    area_writes_exactly_one_column
      ⟨[⟨some ⟨.polygon, 4, 8, 4, [], none⟩, [("keep", some 1)]⟩]⟩ "area_col"
      (by decide) (by decide)
  refine ⟨st2, hok, hval 0 _ _ rfl rfl, ?_⟩
  rw [hk 0 "keep" (by decide)]
  rfl

theorem foldl_oadd_somes (f : Nat → Option ℚ) (A : Nat → ℚ) :
    ∀ (ns : List Nat), (∀ j ∈ ns, f j = some (A j)) → ∀ a0 : ℚ,
      ns.foldl (fun a n => oadd a (f n)) (some a0) = some (a0 + (ns.map A).sum) := by
  intro ns
  induction ns with
  | nil => intro _ a0; simp
  | cons n ns ih =>
    intro hf a0
    have hn : f n = some (A n) := hf n (List.mem_cons_self n ns)
    rw [List.foldl_cons, hn,
      show oadd (some a0) (some (A n)) = some (a0 + A n) from rfl,
      ih (fun j hj => hf j (List.mem_cons_of_mem n hj)) (a0 + A n)]
    simp [add_assoc]

/-- C5: `effective_mesh` writes, for every object, the sum of its own area
cell and the area cells of its neighbours, divided by the neighbour count
plus one; an empty neighbour set yields the object's own area, and when all
`k + 1` areas equal `a` the written value is exactly `a`, for any `k ≥ 0`
(exact rational arithmetic in the model). -/
theorem effective_mesh_formula (df : GeoDataFrame ℚ) (col : String)
    (sw : Nat → List Nat) (ac : String) (A : Nat → ℚ)
    (hcol : col ≠ "geometry") (hac : ac ≠ col)
    (HA : ∀ i, i < df.rows.length →
      ((df.rows[i]?).bind fun r => r.attrs.lookup ac) = some (some (A i)))
    (Hn : ∀ i, i < df.rows.length → ∀ j ∈ sw i, j < df.rows.length) :
    ∃ st2, effective_mesh df col sw ac =
        .ok ⟨st2, none, ["Calculating effective mesh size..."]⟩ ∧
      (∀ i, i < df.rows.length → cellAt st2 i col =
        Option.some (some ((A i + ((sw i).map A).sum) / (((sw i).length : ℚ) + 1)))) ∧
      (∀ i, i < df.rows.length → sw i = [] →
        cellAt st2 i col = Option.some (some (A i))) ∧
      (∀ i a, i < df.rows.length → A i = a → (∀ j ∈ sw i, A j = a) →
        cellAt st2 i col = Option.some (some a)) := by
  classical
  have Ha : ∀ r ∈ df.rows, (r.attrs.lookup ac).isSome = true := by
    intro r hr
    obtain ⟨i, hilt, hieq⟩ := List.mem_iff_getElem.mp hr
    have := HA i hilt
    rw [List.getElem?_eq_getElem hilt] at this
    simp only [Option.bind] at this
    rw [hieq] at this
    rw [this]
    rfl
  obtain ⟨st2, hok, _, hcells⟩ := effective_mesh_ok df col sw ac hcol hac Ha Hn
  have hval : ∀ i, i < df.rows.length → cellAt st2 i col =
      Option.some (some ((A i + ((sw i).map A).sum) / (((sw i).length : ℚ) + 1))) := by
    intro i hi
    have hacc : ((((df.rows[i]?).bind fun r => r.attrs.lookup ac)).getD none) =
        some (A i) := by rw [HA i hi]; rfl
    have hf : ∀ j ∈ sw i,
        ((((df.rows[j]?).bind fun rn => rn.attrs.lookup ac)).getD none) =
          some (A j) := by
      intro j hj
      rw [HA j (Hn i hi j hj)]
      rfl
    rw [hcells i hi, hacc,
      foldl_oadd_somes _ A (sw i) hf (A i)]
    rfl
  refine ⟨st2, hok, hval, ?_, ?_⟩
  · intro i hi hsw
    rw [hval i hi, hsw]
    norm_num
  · intro i a hi hAi hall
    have hsum : ((sw i).map A).sum = ((sw i).length : ℚ) * a := by
      have : ∀ x ∈ (sw i).map A, x = a := by
        intro x hx
        obtain ⟨j, hj, hxe⟩ := List.mem_map.mp hx
        rw [← hxe]
        exact hall j hj
      rw [List.sum_eq_card_nsmul _ a this]
      simp [nsmul_eq_mul]
    have hlen : ((sw i).length : ℚ) + 1 ≠ 0 := by positivity
    rw [hval i hi, hAi, hsum]
    congr 1
    congr 1
    field_simp
    ring

/-- C5 witness: one object whose only neighbour is itself, all areas 5. -/
theorem effective_mesh_formula_witness :
    ∃ st2, effective_mesh (⟨[⟨none, [("area", some 5)]⟩]⟩ : GeoDataFrame ℚ)
        "mesh" (fun _ => [0]) "area" =
        .ok ⟨st2, none, ["Calculating effective mesh size..."]⟩ ∧
      cellAt st2 0 "mesh" = Option.some (some 5) := by
  obtain ⟨st2, hok, _, _, hconst⟩ :=
    effective_mesh_formula ⟨[⟨none, [("area", some 5)]⟩]⟩ "mesh"
      (fun _ => [0]) "area" (fun _ => 5) (by decide) (by decide)
      (by decide) (by decide)
  exact ⟨st2, hok, hconst 0 5 (by decide) rfl (by decide)⟩

/-- C10: `effective_mesh` never returns the frame (the source has no `return`
statement), and `volume` with `area_calculated = true` returns `None` even on
success; both still write the output column in place (under the usual success
conditions every row's output cell is filled).  `area`, `perimeter`, the two
height variants, `floor_area`, `courtyard_area` and `longest_axis_length`
return the updated collection whenever they complete. -/
theorem metric_return_values :
    (∀ (df : GeoDataFrame ℚ) col sw ac res,
      effective_mesh df col sw ac = .ok res → res.ret = none) ∧
    (∀ (df : GeoDataFrame ℚ) col ac hc res,
      volume df col ac hc true = .ok res → res.ret = none) ∧
    (∀ (df : GeoDataFrame ℚ) col ac hc res,
      volume df col ac hc false = .ok res → res.ret = some res.state) ∧
    (∀ (df : GeoDataFrame ℚ) col res,
      area df col = .ok res → res.ret = some res.state) ∧
    (∀ (df : GeoDataFrame ℚ) col res,
      perimeter df col = .ok res → res.ret = some res.state) ∧
    (∀ (df : GeoDataFrame ℚ) col orig res,
      height_os df col orig = .ok res → res.ret = some res.state) ∧
    (∀ (df : GeoDataFrame ℚ) col fc ft res,
      height_prg df col fc ft = .ok res → res.ret = some res.state) ∧
    (∀ (df : GeoDataFrame ℚ) col ac hc b res,
      floor_area df col ac hc b = .ok res → res.ret = some res.state) ∧
    (∀ (df : GeoDataFrame ℚ) col ac b res,
      courtyard_area df col ac b = .ok res → res.ret = some res.state) ∧
    (∀ (sqrtq : ℚ → ℚ) (df : GeoDataFrame ℚ) col res,
      longest_axis_length sqrtq df col = .ok res → res.ret = some res.state) ∧
    (∀ (df : GeoDataFrame ℚ) col sw ac, col ≠ "geometry" → ac ≠ col →
      (∀ r ∈ df.rows, (r.attrs.lookup ac).isSome = true) →
      (∀ i, i < df.rows.length → ∀ j ∈ sw i, j < df.rows.length) →
      ∃ st2, effective_mesh df col sw ac =
          .ok ⟨st2, none, ["Calculating effective mesh size..."]⟩ ∧
        ∀ i, i < df.rows.length → (cellAt st2 i col).isSome = true) ∧
    (∀ (df : GeoDataFrame ℚ) col ac hc, col ≠ "geometry" → ac ≠ col → hc ≠ col →
      (∀ r ∈ df.rows, (r.attrs.lookup ac).isSome = true) →
      (∀ r ∈ df.rows, (r.attrs.lookup hc).isSome = true) →
      ∃ st2, volume df col ac hc true =
          .ok ⟨st2, none, ["Calculating volumes...", "Volumes calculated."]⟩ ∧
        ∀ i, i < df.rows.length → (cellAt st2 i col).isSome = true) := by
  refine ⟨fun df col sw ac res h => effective_mesh_ret df col sw ac res h,
    fun df col ac hc res h => volume_ret df col ac hc true res h,
    fun df col ac hc res h => volume_ret df col ac hc false res h,
    fun df col res h => area_ret df col res h,
    fun df col res h => perimeter_ret df col res h,
    fun df col orig res h => height_os_ret df col orig res h,
    fun df col fc ft res h => height_prg_ret df col fc ft res h,
    fun df col ac hc b res h => floor_area_ret df col ac hc b res h,
    fun df col ac b res h => courtyard_area_ret df col ac b res h,
    fun sqrtq df col res h => longest_axis_length_ret sqrtq df col res h,
    ?_, ?_⟩
  · intro df col sw ac hcol hac Ha Hn
    obtain ⟨st2, hok, _, hcells⟩ := effective_mesh_ok df col sw ac hcol hac Ha Hn
    exact ⟨st2, hok, fun i hi => by rw [hcells i hi]; rfl⟩
  · intro df col ac hc hcol hac hhc Ha Hh
    obtain ⟨st2, hok, _, hcells⟩ := volume_true_ok df col ac hc hcol hac hhc Ha Hh
    refine ⟨st2, hok, fun i hi => ?_⟩
    have hr : df.rows[i]? = some df.rows[i] := List.getElem?_eq_getElem hi
    obtain ⟨a0, ha0⟩ :=
      Option.isSome_iff_exists.mp (Ha df.rows[i] (List.getElem_mem hi))
    obtain ⟨h0, hh0⟩ :=
      Option.isSome_iff_exists.mp (Hh df.rows[i] (List.getElem_mem hi))
    rw [hcells i df.rows[i] hr a0 h0 ha0 hh0]
    rfl

/-- C10 witness. -/
theorem metric_return_values_witness :
    (volume (α := ℚ) ⟨[⟨none, []⟩]⟩ "volume" "area" "height" true =
      .ok ⟨⟨[⟨none, [("volume", none)]⟩]⟩, none,
        ["Calculating volumes...", errArea "area"]⟩) ∧
    (⟨⟨[⟨none, [("volume", none)]⟩]⟩, none,
        ["Calculating volumes...", errArea "area"]⟩ : CallOk ℚ).ret = none :=
  ⟨rfl, metric_return_values.2.1 ⟨[⟨none, []⟩]⟩ "volume" "area" "height" _ rfl⟩

/-- C9 witness. -/
theorem missing_area_still_mutates_witness :
    ∃ res : CallOk ℚ,
      volume (⟨[⟨some ⟨.polygon, 4, 8, 4, [], none⟩, []⟩]⟩ : GeoDataFrame ℚ)
        "volume" "area" "height" true = .ok res ∧
      res.out = ["Calculating volumes...", errArea "area"] ∧
      res.state.rows.length = 1 ∧
      ∀ i, i < 1 → cellAt res.state i "volume" = some none :=
  (missing_area_still_mutates ⟨[⟨some ⟨.polygon, 4, 8, 4, [], none⟩, []⟩]⟩
    "volume" "area" "height" (by decide) (by decide) _ [] rfl rfl _ rfl).1

end Momepy

namespace Momepy

theorem covR_cons (x : ℝ × ℝ) (q : Point) (t : List Point) :
    covR x (q :: t) = max (distSq x (toR q)) (covR x t) := rfl

theorem distSq_nonneg_real (c p : ℝ × ℝ) : 0 ≤ distSq c p := by
  simp only [distSq]
  positivity

theorem covR_nonneg (x : ℝ × ℝ) (ps : List Point) : 0 ≤ covR x ps := by
  induction ps with
  | nil => simp [covR]
  | cons q t ih => rw [covR_cons]; exact le_max_of_le_right ih

theorem covR_mem (x : ℝ × ℝ) (ps : List Point) :
    ∀ p ∈ ps, distSq x (toR p) ≤ covR x ps := by
  induction ps with
  | nil => simp
  | cons q t ih =>
    intro p hp
    rw [covR_cons]
    rcases List.mem_cons.mp hp with h | h
    · subst h; exact le_max_left _ _
    · exact le_max_of_le_right (ih p h)

theorem covR_le (x : ℝ × ℝ) (ps : List Point) (b : ℝ) (h0 : 0 ≤ b)
    (h : ∀ p ∈ ps, distSq x (toR p) ≤ b) : covR x ps ≤ b := by
  induction ps with
  | nil => simpa [covR] using h0
  | cons q t ih =>
    rw [covR_cons]
    exact max_le (h q (List.mem_cons_self q t))
      (ih fun p hp => h p (List.mem_cons_of_mem q hp))

theorem covR_lt (x : ℝ × ℝ) (ps : List Point) (b : ℝ) (h0 : 0 < b)
    (h : ∀ p ∈ ps, distSq x (toR p) < b) : covR x ps < b := by
  induction ps with
  | nil => simpa [covR] using h0
  | cons q t ih =>
    rw [covR_cons]
    exact max_lt (h q (List.mem_cons_self q t))
      (ih fun p hp => h p (List.mem_cons_of_mem q hp))

theorem covR_attained (x : ℝ × ℝ) (ps : List Point) (hne : ps ≠ []) :
    ∃ p ∈ ps, distSq x (toR p) = covR x ps := by
  induction ps with
  | nil => exact absurd rfl hne
  | cons q t ih =>
    cases t with
    | nil =>
      refine ⟨q, List.mem_cons_self q [], ?_⟩
      rw [covR_cons]
      exact (max_eq_left (by simpa [covR] using distSq_nonneg_real x (toR q))).symm
    | cons q2 t2 =>
      obtain ⟨p, hp, hpe⟩ := ih (by simp)
      rw [covR_cons]
      rcases max_cases (distSq x (toR q)) (covR x (q2 :: t2)) with ⟨he, _⟩ | ⟨he, _⟩
      · exact ⟨q, List.mem_cons_self q _, he.symm⟩
      · exact ⟨p, List.mem_cons_of_mem q hp, by rw [he, ← hpe]⟩

theorem covR_continuous (ps : List Point) : Continuous fun x : ℝ × ℝ => covR x ps := by
  induction ps with
  | nil => simpa [covR] using continuous_const
  | cons q t ih =>
    have hd : Continuous fun x : ℝ × ℝ => distSq x (toR q) := by
      simp only [distSq]
      exact ((continuous_fst.sub continuous_const).pow 2).add
        ((continuous_snd.sub continuous_const).pow 2)
    simpa only [covR_cons] using hd.max ih

theorem covR_cast (d : Point) (ps : List Point) :
    ((coverSq d ps : ℚ) : ℝ) = covR (toR d) ps := by
  induction ps with
  | nil => simp [coverSq, covR]
  | cons q t ih =>
    rw [coverSq_cons, covR_cons, ← ih, ← distSq_cast]
    push_cast [max_def]
    split <;> split <;> first | rfl | (rename_i h1 h2; exact absurd (by exact_mod_cast h1) h2) | (rename_i h1 h2; exact absurd (by exact_mod_cast h2) h1)

theorem dist_sq_le_distSq (x y : ℝ × ℝ) : (dist x y) ^ 2 ≤ distSq x y := by
  rw [Prod.dist_eq]
  simp only [distSq, Real.dist_eq]
  rcases max_cases (|x.1 - y.1|) (|x.2 - y.2|) with ⟨he, _⟩ | ⟨he, _⟩ <;>
    rw [he] <;> rw [sq_abs] <;> nlinarith [sq_nonneg (x.1 - y.1), sq_nonneg (x.2 - y.2)]

theorem covR_exists_min (ps : List Point) (hne : ps ≠ []) :
    ∃ x0 : ℝ × ℝ, ∀ x : ℝ × ℝ, covR x0 ps ≤ covR x ps := by
  obtain ⟨p0, hp0⟩ : ∃ p0, p0 ∈ ps := List.exists_mem_of_ne_nil ps hne
  obtain ⟨x0, hx0K, hx0min⟩ :=
    (isCompact_closedBall (toR p0) (Real.sqrt (covR (toR p0) ps) + 1)).exists_isMinOn
      ⟨toR p0, by simp [Metric.mem_closedBall]; positivity⟩
      (covR_continuous ps).continuousOn
  refine ⟨x0, fun x => ?_⟩
  by_cases hx : x ∈ Metric.closedBall (toR p0) (Real.sqrt (covR (toR p0) ps) + 1)
  · exact hx0min hx
  · have h1 : Real.sqrt (covR (toR p0) ps) + 1 < dist x (toR p0) := by
      by_contra hcon
      exact hx (Metric.mem_closedBall.mpr (not_lt.mp hcon))
  -- outside the ball the covering radius exceeds that of the center point
    have h2 : covR (toR p0) ps < covR x ps := by
      have ha : distSq x (toR p0) ≤ covR x ps := covR_mem x ps p0 hp0
      have hb : (dist x (toR p0)) ^ 2 ≤ distSq x (toR p0) := dist_sq_le_distSq _ _
      have hs : Real.sqrt (covR (toR p0) ps) ^ 2 = covR (toR p0) ps :=
        Real.sq_sqrt (covR_nonneg _ _)
      nlinarith [Real.sqrt_nonneg (covR (toR p0) ps), dist_nonneg (x := x) (y := toR p0)]
    calc covR x0 ps ≤ covR (toR p0) ps := hx0min (by simp [Metric.mem_closedBall]; positivity)
      _ ≤ covR x ps := h2.le

end Momepy

namespace Momepy

theorem distSq_translate (x v y : ℝ × ℝ) (t : ℝ) :
    distSq (x.1 + t * v.1, x.2 + t * v.2) y =
      distSq x y - 2 * t * dotp v (y.1 - x.1, y.2 - x.2) + t ^ 2 * dotp v v := by
  simp only [distSq, dotp]
  ring

theorem dotp_self_nonneg (v : ℝ × ℝ) : 0 ≤ dotp v v := by
  simp only [dotp]
  nlinarith [sq_nonneg v.1, sq_nonneg v.2]

/-- Moving the center a small positive step along a direction that points
strictly towards every farthest input point strictly decreases the distance
to every input point below the previous covering radius. -/
theorem improve_step (x0 v : ℝ × ℝ) (r2 : ℝ) :
    ∀ (l : List Point),
      (∀ p ∈ l, distSq x0 (toR p) ≤ r2) →
      (∀ p ∈ l, distSq x0 (toR p) = r2 →
        0 < dotp v ((toR p).1 - x0.1, (toR p).2 - x0.2)) →
      ∃ t0 : ℝ, 0 < t0 ∧ ∀ t : ℝ, 0 < t → t ≤ t0 →
        ∀ p ∈ l, distSq (x0.1 + t * v.1, x0.2 + t * v.2) (toR p) < r2 := by
  intro l
  induction l with
  | nil =>
    exact fun _ _ => ⟨1, one_pos, fun t _ _ p hp => absurd hp (List.not_mem_nil p)⟩
  | cons q l ih =>
    intro hle hfar
    obtain ⟨t1, ht1, hprop⟩ :=
      ih (fun p hp => hle p (List.mem_cons_of_mem q hp))
         (fun p hp h => hfar p (List.mem_cons_of_mem q hp) h)
    have hB : 0 ≤ dotp v v := dotp_self_nonneg v
    by_cases hq : distSq x0 (toR q) = r2
    · have hd : 0 < dotp v ((toR q).1 - x0.1, (toR q).2 - x0.2) :=
        hfar q (List.mem_cons_self q l) hq
      refine ⟨min t1 (dotp v ((toR q).1 - x0.1, (toR q).2 - x0.2) / (dotp v v + 1)),
        lt_min ht1 (by positivity), fun t ht htle p hp => ?_⟩
      rcases List.mem_cons.mp hp with h | h
      · subst h
        rw [distSq_translate]
        have htq : t * (dotp v v + 1) ≤
            dotp v ((toR p).1 - x0.1, (toR p).2 - x0.2) := by
          have := le_trans htle (min_le_right t1 _)
          exact (le_div_iff₀ (by positivity)).mp this
        nlinarith [mul_pos ht hd, sq_nonneg t, hq,
          mul_le_mul_of_nonneg_left htq ht.le]
      · exact hprop t ht (le_trans htle (min_le_left _ _)) p h
    · have hqlt : distSq x0 (toR q) < r2 :=
        lt_of_le_of_ne (hle q (List.mem_cons_self q l)) hq
      refine ⟨min t1 (min 1 ((r2 - distSq x0 (toR q)) /
          (2 * |dotp v ((toR q).1 - x0.1, (toR q).2 - x0.2)| + dotp v v + 1))),
        lt_min ht1 (lt_min one_pos (div_pos (by linarith) (by positivity))), fun t ht htle p hp => ?_⟩
      rcases List.mem_cons.mp hp with h | h
      · subst h
        rw [distSq_translate]
        have ht1' : t ≤ 1 :=
          le_trans htle (le_trans (min_le_right t1 _) (min_le_left _ _))
        have ht2 : t * (2 * |dotp v ((toR p).1 - x0.1, (toR p).2 - x0.2)| +
            dotp v v + 1) ≤ r2 - distSq x0 (toR p) := by
          have := le_trans htle (le_trans (min_le_right t1 _) (min_le_right _ _))
          exact (le_div_iff₀ (by positivity)).mp this
        have habs : -(|dotp v ((toR p).1 - x0.1, (toR p).2 - x0.2)|) ≤
            dotp v ((toR p).1 - x0.1, (toR p).2 - x0.2) := neg_abs_le _
        have habs2 : (0:ℝ) ≤ |dotp v ((toR p).1 - x0.1, (toR p).2 - x0.2)| := abs_nonneg _
        nlinarith [mul_le_mul_of_nonneg_left habs (mul_nonneg (by norm_num : (0:ℝ) ≤ 2) ht.le),
          mul_le_mul_of_nonneg_right ht1' (mul_nonneg ht.le hB),
          mul_pos ht ht, ht.le]
      · exact hprop t ht (le_trans htle (min_le_left _ _)) p h

/-- At a global minimizer of the covering radius with positive radius, no
direction can point strictly towards every farthest point. -/
theorem no_improvement_at_min (ps : List Point) (x0 : ℝ × ℝ)
    (hmin : ∀ x : ℝ × ℝ, covR x0 ps ≤ covR x ps) (hpos : 0 < covR x0 ps)
    (v : ℝ × ℝ)
    (hfar : ∀ p ∈ ps, distSq x0 (toR p) = covR x0 ps →
      0 < dotp v ((toR p).1 - x0.1, (toR p).2 - x0.2)) : False := by
  obtain ⟨t0, ht0, hall⟩ := improve_step x0 v (covR x0 ps) ps (covR_mem x0 ps) hfar
  have hlt := covR_lt (x0.1 + t0 * v.1, x0.2 + t0 * v.2) ps _ hpos
    (hall t0 ht0 le_rfl)
  exact absurd (hmin _) (not_le.mpr hlt)

end Momepy

namespace Momepy

theorem distSq_eq_zero_real (x y : ℝ × ℝ) (h : distSq x y = 0) : x = y := by
  simp only [distSq] at h
  have h1 : x.1 = y.1 := by nlinarith [sq_nonneg (x.1 - y.1), sq_nonneg (x.2 - y.2)]
  have h2 : x.2 = y.2 := by nlinarith [sq_nonneg (x.1 - y.1), sq_nonneg (x.2 - y.2)]
  exact Prod.ext h1 h2

/-- A real point equidistant from three pairwise-distinct rational points is
the (rational) circumcenter computed by `circumcenter`, which in particular
returns `some`. -/
theorem circumcenter_unique (p1 p2 p3 : Point) (x0 : ℝ × ℝ) (r2 : ℝ)
    (h1 : distSq x0 (toR p1) = r2) (h2 : distSq x0 (toR p2) = r2)
    (h3 : distSq x0 (toR p3) = r2)
    (h12 : toR p1 ≠ toR p2) (h13 : toR p1 ≠ toR p3) (h23 : toR p2 ≠ toR p3) :
    ∃ o : Point, circumcenter p1 p2 p3 = some o ∧ toR o = x0 := by
  have eqB : 2 * ((x0.1 - (p1.1 : ℝ)) * ((p2.1 : ℝ) - (p1.1 : ℝ)) +
      (x0.2 - (p1.2 : ℝ)) * ((p2.2 : ℝ) - (p1.2 : ℝ))) =
      ((p2.1 : ℝ) - (p1.1 : ℝ)) ^ 2 + ((p2.2 : ℝ) - (p1.2 : ℝ)) ^ 2 := by
    have e1 := h1
    have e2 := h2
    simp only [distSq, toR] at e1 e2
    linear_combination e1 - e2
  have eqC : 2 * ((x0.1 - (p1.1 : ℝ)) * ((p3.1 : ℝ) - (p1.1 : ℝ)) +
      (x0.2 - (p1.2 : ℝ)) * ((p3.2 : ℝ) - (p1.2 : ℝ))) =
      ((p3.1 : ℝ) - (p1.1 : ℝ)) ^ 2 + ((p3.2 : ℝ) - (p1.2 : ℝ)) ^ 2 := by
    have e1 := h1
    have e3 := h3
    simp only [distSq, toR] at e1 e3
    linear_combination e1 - e3
  by_cases hD : 2 * ((p2.1 - p1.1) * (p3.2 - p1.2) - (p2.2 - p1.2) * (p3.1 - p1.1)) = (0:ℚ)
  · exfalso
    have hDR : ((p2.1 : ℝ) - p1.1) * ((p3.2 : ℝ) - p1.2) -
        ((p2.2 : ℝ) - p1.2) * ((p3.1 : ℝ) - p1.1) = 0 := by
      have : ((2 * ((p2.1 - p1.1) * (p3.2 - p1.2) - (p2.2 - p1.2) * (p3.1 - p1.1)) : ℚ) : ℝ) = 0 := by
        rw [hD]; norm_num
      push_cast at this
      linarith
    set z1 : ℝ := (p2.1 : ℝ) - p1.1 with hz1
    set z2 : ℝ := (p2.2 : ℝ) - p1.2 with hz2
    set w1 : ℝ := (p3.1 : ℝ) - p1.1 with hw1
    set w2 : ℝ := (p3.2 : ℝ) - p1.2 with hw2
    have hwne : w1 ^ 2 + w2 ^ 2 > 0 := by
      have : ¬(w1 = 0 ∧ w2 = 0) := by
        rintro ⟨ha, hb⟩
        apply h13
        simp only [toR, Prod.mk.injEq]
        constructor <;> [linarith [hw1 ▸ ha]; linarith [hw2 ▸ hb]]
      rcases not_and_or.mp this with h | h
      · have := sq_pos_of_ne_zero h
        nlinarith [sq_nonneg w2]
      · have := sq_pos_of_ne_zero h
        nlinarith [sq_nonneg w1]
    -- z is parallel to w; write z = lam • w
    set lam : ℝ := (z1 * w1 + z2 * w2) / (w1 ^ 2 + w2 ^ 2) with hlam
    have hzl1 : z1 = lam * w1 := by
      rw [hlam, div_mul_eq_mul_div, eq_div_iff (ne_of_gt hwne)]
      linear_combination w2 * hDR
    have hzl2 : z2 = lam * w2 := by
      rw [hlam, div_mul_eq_mul_div, eq_div_iff (ne_of_gt hwne)]
      linear_combination (-w1) * hDR
    -- from the two bisector equations, lam * (lam - 1) * |w|² = 0
    have hkey : lam * (lam - 1) * (w1 ^ 2 + w2 ^ 2) = 0 := by
      have eqB' : 2 * ((x0.1 - (p1.1 : ℝ)) * (lam * w1) +
          (x0.2 - (p1.2 : ℝ)) * (lam * w2)) = (lam * w1) ^ 2 + (lam * w2) ^ 2 := by
        rw [← hzl1, ← hzl2]
        exact eqB
      linear_combination lam * eqC - eqB'
    have hl01 : lam = 0 ∨ lam = 1 := by
      rcases mul_eq_zero.mp hkey with h | h
      · rcases mul_eq_zero.mp h with h | h
        · exact Or.inl h
        · exact Or.inr (by linarith)
      · exact absurd h (by positivity)
    rcases hl01 with h | h
    · apply h12
      simp only [toR, Prod.mk.injEq]
      rw [h] at hzl1 hzl2
      constructor <;> [linarith [hzl1]; linarith [hzl2]]
    · apply h23
      simp only [toR, Prod.mk.injEq]
      rw [h] at hzl1 hzl2
      constructor <;> [linarith [hzl1]; linarith [hzl2]]
  · have hDR : (2:ℝ) * (((p2.1:ℝ) - p1.1) * ((p3.2:ℝ) - p1.2) -
        ((p2.2:ℝ) - p1.2) * ((p3.1:ℝ) - p1.1)) ≠ 0 := by
      intro hc
      apply hD
      have : ((2 * ((p2.1 - p1.1) * (p3.2 - p1.2) - (p2.2 - p1.2) * (p3.1 - p1.1)) : ℚ) : ℝ) = 0 := by
        push_cast
        linarith
      exact_mod_cast this
    have hx1 : (x0.1 - (p1.1:ℝ)) *
        (2 * (((p2.1:ℝ) - p1.1) * ((p3.2:ℝ) - p1.2) - ((p2.2:ℝ) - p1.2) * ((p3.1:ℝ) - p1.1))) =
        ((p3.2:ℝ) - p1.2) * (((p2.1:ℝ) - p1.1) ^ 2 + ((p2.2:ℝ) - p1.2) ^ 2) -
        ((p2.2:ℝ) - p1.2) * (((p3.1:ℝ) - p1.1) ^ 2 + ((p3.2:ℝ) - p1.2) ^ 2) := by
      linear_combination ((p3.2:ℝ) - p1.2) * eqB - ((p2.2:ℝ) - p1.2) * eqC
    have hx2 : (x0.2 - (p1.2:ℝ)) *
        (2 * (((p2.1:ℝ) - p1.1) * ((p3.2:ℝ) - p1.2) - ((p2.2:ℝ) - p1.2) * ((p3.1:ℝ) - p1.1))) =
        ((p2.1:ℝ) - p1.1) * (((p3.1:ℝ) - p1.1) ^ 2 + ((p3.2:ℝ) - p1.2) ^ 2) -
        ((p3.1:ℝ) - p1.1) * (((p2.1:ℝ) - p1.1) ^ 2 + ((p2.2:ℝ) - p1.2) ^ 2) := by
      linear_combination ((p2.1:ℝ) - p1.1) * eqC - ((p3.1:ℝ) - p1.1) * eqB
    refine ⟨(p1.1 + ((p3.2 - p1.2) * distSq p2 p1 - (p2.2 - p1.2) * distSq p3 p1) /
          (2 * ((p2.1 - p1.1) * (p3.2 - p1.2) - (p2.2 - p1.2) * (p3.1 - p1.1))),
        p1.2 + ((p2.1 - p1.1) * distSq p3 p1 - (p3.1 - p1.1) * distSq p2 p1) /
          (2 * ((p2.1 - p1.1) * (p3.2 - p1.2) - (p2.2 - p1.2) * (p3.1 - p1.1)))), ?_, ?_⟩
    · simp only [circumcenter]
      rw [if_neg hD]
    · have hb2 : ((distSq p2 p1 : ℚ) : ℝ) = ((p2.1:ℝ) - p1.1) ^ 2 + ((p2.2:ℝ) - p1.2) ^ 2 := by
        rw [distSq_cast]
        simp [distSq, toR]
      have hb3 : ((distSq p3 p1 : ℚ) : ℝ) = ((p3.1:ℝ) - p1.1) ^ 2 + ((p3.2:ℝ) - p1.2) ^ 2 := by
        rw [distSq_cast]
        simp [distSq, toR]
      rw [Prod.ext_iff]
      refine ⟨?_, ?_⟩
      · simp only [toR]
        push_cast [hb2, hb3]
        rw [eq_comm]
        field_simp
        linear_combination hx1
      · simp only [toR]
        push_cast [hb2, hb3]
        rw [eq_comm]
        field_simp
        linear_combination hx2

end Momepy

namespace Momepy

/-- Any global minimizer of the real covering radius coincides with one of the
solver's candidate centers (an input point, a pair midpoint, or a triple
circumcenter), so some candidate's rational covering radius is at most the
global minimum. -/
theorem min_is_candidate (ps : List Point) (hne : ps ≠ []) (x0 : ℝ × ℝ)
    (hmin : ∀ x : ℝ × ℝ, covR x0 ps ≤ covR x ps) :
    ∃ d ∈ candCenters ps, ((coverSq d ps : ℚ) : ℝ) ≤ covR x0 ps := by
  classical
  obtain ⟨p1, hp1, hp1eq⟩ := covR_attained x0 ps hne
  by_cases hr0 : covR x0 ps = 0
  · have hx0 : x0 = toR p1 := distSq_eq_zero_real _ _ (by rw [hp1eq, hr0])
    refine ⟨p1, self_mem_candCenters ps p1 hp1, ?_⟩
    rw [covR_cast, ← hx0]
  · have hrpos : 0 < covR x0 ps := lt_of_le_of_ne (covR_nonneg x0 ps) (Ne.symm hr0)
    by_cases hF2 : ∃ p ∈ ps, distSq x0 (toR p) = covR x0 ps ∧ toR p ≠ toR p1
    · obtain ⟨p2, hp2, hp2eq, hp2ne⟩ := hF2
      by_cases hsum : ((toR p1).1 - x0.1) + ((toR p2).1 - x0.1) = 0 ∧
          ((toR p1).2 - x0.2) + ((toR p2).2 - x0.2) = 0
      · obtain ⟨ha, hb⟩ := hsum
        have hx0 : x0 = toR (midpt p1 p2) := by
          simp only [toR] at ha hb
          rw [Prod.ext_iff]
          constructor
          · simp only [toR, midpt]
            push_cast
            linarith
          · simp only [toR, midpt]
            push_cast
            linarith
        refine ⟨midpt p1 p2, midpt_mem_candCenters ps p1 p2 hp1 hp2, ?_⟩
        rw [covR_cast, ← hx0]
      · by_cases hF3 : ∃ p ∈ ps, distSq x0 (toR p) = covR x0 ps ∧
            toR p ≠ toR p1 ∧ toR p ≠ toR p2
        · obtain ⟨p3, hp3, hp3eq, hp3ne1, hp3ne2⟩ := hF3
          obtain ⟨o, ho, hoeq⟩ :=
            circumcenter_unique p1 p2 p3 x0 (covR x0 ps) hp1eq hp2eq hp3eq
              (Ne.symm hp2ne) (Ne.symm hp3ne1) (Ne.symm hp3ne2)
          refine ⟨o, circumcenter_mem_candCenters ps p1 p2 p3 o hp1 hp2 hp3 ho, ?_⟩
          rw [covR_cast, hoeq]
        · exfalso
          push_neg at hF3
          have hvpos : 0 < (((toR p1).1 - x0.1) + ((toR p2).1 - x0.1)) ^ 2 +
              (((toR p1).2 - x0.2) + ((toR p2).2 - x0.2)) ^ 2 := by
            rcases not_and_or.mp hsum with h | h
            · have := sq_pos_of_ne_zero h
              nlinarith [sq_nonneg (((toR p1).2 - x0.2) + ((toR p2).2 - x0.2))]
            · have := sq_pos_of_ne_zero h
              nlinarith [sq_nonneg (((toR p1).1 - x0.1) + ((toR p2).1 - x0.1))]
          have hd1 : distSq x0 (toR p1) = covR x0 ps := hp1eq
          have hd2 : distSq x0 (toR p2) = covR x0 ps := hp2eq
          simp only [distSq] at hd1 hd2
          apply no_improvement_at_min ps x0 hmin hrpos
            (((toR p1).1 - x0.1) + ((toR p2).1 - x0.1),
             ((toR p1).2 - x0.2) + ((toR p2).2 - x0.2))
          intro p hp hpeq
          by_cases hpp1 : toR p = toR p1
          · rw [hpp1]
            simp only [dotp]
            nlinarith [hvpos, hd1, hd2, hrpos]
          · have hpp2 : toR p = toR p2 := hF3 p hp hpeq hpp1
            rw [hpp2]
            simp only [dotp]
            nlinarith [hvpos, hd1, hd2, hrpos]
    · exfalso
      push_neg at hF2
      apply no_improvement_at_min ps x0 hmin hrpos
        ((toR p1).1 - x0.1, (toR p1).2 - x0.2)
      intro p hp hpeq
      have hpp1 : toR p = toR p1 := hF2 p hp hpeq
      rw [hpp1]
      have hd1 : distSq x0 (toR p1) = covR x0 ps := hp1eq
      simp only [distSq] at hd1
      simp only [dotp]
      nlinarith [hrpos, hd1]

end Momepy

namespace Momepy

/-- C1: the modelled minimal-enclosing-circle solver, on any non-empty input,
returns a circle (center and squared radius) that contains every input point
— exactly, hence a fortiori within any numerical tolerance — and no circle of
smaller radius, over all real centers, contains all input points (exact
optimality, epsilon 0). -/
theorem make_circle_correct (ps : List Point) (hne : ps ≠ []) :
    ∃ x y rsq, make_circle ps = some (x, y, rsq) ∧ 0 ≤ rsq ∧
      (∀ p ∈ ps, distSq ((x, y) : Point) p ≤ rsq) ∧
      (∀ (c : ℝ × ℝ) (r2 : ℝ), (∀ p ∈ ps, distSq c (toR p) ≤ r2) →
        ((rsq : ℚ) : ℝ) ≤ r2) ∧
      (∀ (c : ℝ × ℝ) (r : ℝ), 0 ≤ r → (∀ p ∈ ps, distSq c (toR p) ≤ r ^ 2) →
        Real.sqrt ((rsq : ℚ) : ℝ) ≤ r) := by
  cases ps with
  | nil => exact absurd rfl hne
  | cons p t =>
    refine ⟨(pickMin (p :: t) p (candCenters (p :: t))).1,
      (pickMin (p :: t) p (candCenters (p :: t))).2,
      coverSq (pickMin (p :: t) p (candCenters (p :: t))) (p :: t), rfl,
      coverSq_nonneg _ _, ?_, ?_, ?_⟩
    · intro q hq
      exact coverSq_mem (pickMin (p :: t) p (candCenters (p :: t))) (p :: t) q hq
    · intro c r2 hcov
      have hr2 : (0:ℝ) ≤ r2 :=
        le_trans (distSq_nonneg_real c (toR p)) (hcov p (List.mem_cons_self p t))
      obtain ⟨x0, hx0⟩ := covR_exists_min (p :: t) hne
      obtain ⟨d, hd, hdle⟩ := min_is_candidate (p :: t) hne x0 hx0
      have h2 : coverSq (pickMin (p :: t) p (candCenters (p :: t))) (p :: t) ≤
          coverSq d (p :: t) := (pickMin_spec (p :: t) (candCenters (p :: t)) p).2.2 d hd
      calc ((coverSq (pickMin (p :: t) p (candCenters (p :: t))) (p :: t) : ℚ) : ℝ)
          ≤ ((coverSq d (p :: t) : ℚ) : ℝ) := by exact_mod_cast h2
        _ ≤ covR x0 (p :: t) := hdle
        _ ≤ covR c (p :: t) := hx0 c
        _ ≤ r2 := covR_le c (p :: t) r2 hr2 hcov
    · intro c r hr hcov
      have hb : ((coverSq (pickMin (p :: t) p (candCenters (p :: t))) (p :: t) : ℚ) : ℝ)
          ≤ r ^ 2 := by
        have hr2 : (0:ℝ) ≤ r ^ 2 := sq_nonneg r
        obtain ⟨x0, hx0⟩ := covR_exists_min (p :: t) hne
        obtain ⟨d, hd, hdle⟩ := min_is_candidate (p :: t) hne x0 hx0
        have h2 : coverSq (pickMin (p :: t) p (candCenters (p :: t))) (p :: t) ≤
            coverSq d (p :: t) := (pickMin_spec (p :: t) (candCenters (p :: t)) p).2.2 d hd
        calc ((coverSq (pickMin (p :: t) p (candCenters (p :: t))) (p :: t) : ℚ) : ℝ)
            ≤ ((coverSq d (p :: t) : ℚ) : ℝ) := by exact_mod_cast h2
          _ ≤ covR x0 (p :: t) := hdle
          _ ≤ covR c (p :: t) := hx0 c
          _ ≤ r ^ 2 := covR_le c (p :: t) (r ^ 2) hr2 hcov
      calc Real.sqrt ((coverSq (pickMin (p :: t) p (candCenters (p :: t))) (p :: t) : ℚ) : ℝ)
          ≤ Real.sqrt (r ^ 2) := Real.sqrt_le_sqrt hb
        _ = r := Real.sqrt_sq hr

/-- C1 witness: the two-point input `(0,0), (4,0)` of spec §8. -/
theorem make_circle_correct_witness :
    (([((0:ℚ),(0:ℚ)), (4,0)] : List Point) ≠ []) ∧
    (∃ x y rsq, make_circle [((0:ℚ),(0:ℚ)), (4,0)] = some (x, y, rsq) ∧ 0 ≤ rsq ∧
      (∀ p ∈ [((0:ℚ),(0:ℚ)), (4,0)], distSq ((x, y) : Point) p ≤ rsq) ∧
      (∀ (c : ℝ × ℝ) (r2 : ℝ), (∀ p ∈ [((0:ℚ),(0:ℚ)), (4,0)], distSq c (toR p) ≤ r2) →
        ((rsq : ℚ) : ℝ) ≤ r2) ∧
      (∀ (c : ℝ × ℝ) (r : ℝ), 0 ≤ r →
        (∀ p ∈ [((0:ℚ),(0:ℚ)), (4,0)], distSq c (toR p) ≤ r ^ 2) →
        Real.sqrt ((rsq : ℚ) : ℝ) ≤ r)) :=
  ⟨by decide, make_circle_correct [((0:ℚ),(0:ℚ)), (4,0)] (by decide)⟩

end Momepy
